import Mathlib

/-!
Shallow embedding of the Word Fuse server core (game service, turn engine,
dictionary factory and utilities) and proofs of the specification claims.

JavaScript `Date.now()` timestamps are modelled as `Nat` arguments threaded
through each operation; `Math.random()`-driven choices are modelled by an
extra `Nat` argument (the random index / generated identifier).  JS `Set` and
`Map` are modelled as lists (of distinct members) and association lists.
-/

namespace WordFuse

/-! ## Constants (gameService.ts) -/

def DEFAULT_TURN_SECONDS : Nat := 10
def MIN_TURN_SECONDS : Int := 5
def MAX_TURN_SECONDS : Int := 20
def DEFAULT_STARTING_LIVES : Nat := 3
def MIN_STARTING_LIVES : Int := 1
def MAX_STARTING_LIVES : Int := 5
def MIN_PLAYERS_TO_START : Nat := 2
def MAX_PLAYERS_PER_ROOM : Nat := 12
def TIMER_TICK_MS : Nat := 250
def SUBMIT_RATE_LIMIT_MS : Nat := 300
def EMPTY_ROOM_TTL_MS : Nat := 5 * 60 * 1000

def CHUNKS : List String :=
  ["AR", "ER", "ING", "TION", "CH", "SH", "TH", "EA", "OU", "ST",
   "TR", "SP", "CL", "BR", "PL", "GR", "PH", "WH", "CK", "LL",
   "MENT", "NESS", "ABLE", "FUL", "LESS", "AL", "OR", "EN", "IST", "OUS"]

/-! ## utils.ts -/

/-- Source `clampInt(value, min, max)`; payload numbers are modelled as integers, so
the `Number.isFinite` guard never fires and `Math.round` is the identity. -/
def clampInt (value min max : Int) : Int :=
  Max.max min (Min.min max value)

def isUpperAlnum (c : Char) : Bool :=
  (Char.ofNat 65 ≤ c && c ≤ Char.ofNat 90) || (Char.ofNat 48 ≤ c && c ≤ Char.ofNat 57)

/-- character-wise `toLowerCase` (kernel-evaluable model of the JS call) -/
def toLowerStr (s : String) : String :=
  String.mk (s.toList.map Char.toLower)

/-- character-wise `toUpperCase` -/
def toUpperStr (s : String) : String :=
  String.mk (s.toList.map Char.toUpper)

def isWsChar (c : Char) : Bool :=
  c.isWhitespace

/-- Source `String.prototype.trim`. -/
def trimStr (s : String) : String :=
  String.mk (((s.toList.dropWhile isWsChar).reverse.dropWhile isWsChar).reverse)

/-- Source `sanitizeRoomCode`: uppercase, strip non `[A-Z0-9]`, keep first 6 chars. -/
def sanitizeRoomCode (input : String) : String :=
  String.mk ((((toUpperStr input).toList).filter isUpperAlnum).take 6)

def isNameChar (c : Char) : Bool :=
  c.isAlphanum || c = ' ' || c = '_' || c = '-'

/-- collapse consecutive spaces (the residue of the `\s+` replacement) -/
def squeezeSpaces : List Char → List Char
  | [] => []
  | [c] => [c]
  | a :: b :: rest =>
      if a = ' ' && b = ' ' then squeezeSpaces (b :: rest)
      else a :: squeezeSpaces (b :: rest)

/-- Source `sanitizePlayerName`: trim, collapse whitespace runs to one space, strip
characters outside `[A-Za-z0-9 _-]`, keep first 20 chars. -/
def sanitizePlayerName (input : String) : String :=
  let trimmed := (trimStr input).toList
  let collapsed := squeezeSpaces (trimmed.map (fun c => if c.isWhitespace then ' ' else c))
  String.mk ((collapsed.filter isNameChar).take 20)

/-- Source `sanitizeWord`: trim and lowercase. -/
def sanitizeWord (input : String) : String :=
  toLowerStr (trimStr input)

/-! ## dictionary.ts -/

structure Dictionary where
  enabled : Bool
  size : Nat
  has : String → Bool
  hasAnyForChunk : String → List String → Bool

def isLowerAlpha (c : Char) : Bool :=
  Char.ofNat 97 ≤ c && c ≤ Char.ofNat 122

/-- the regex `^[a-z]{3,}$` -/
def isDictWord (s : String) : Bool :=
  3 ≤ s.length && s.toList.all isLowerAlpha

/-- Source `parseWords`: split into lines, trim + lowercase, keep `^[a-z]{3,}$`
matches; `Set` membership is list membership after `dedup`. -/
def parseWords (raw : String) : List String :=
  ((raw.splitOn "\n").map (fun line => toLowerStr (trimStr line))).filter isDictWord

/-- Source `String.prototype.includes`: contiguous-substring containment. -/
def stringIncludes (hay needle : String) : Bool :=
  decide (needle.toList <:+: hay.toList)

def disabledDictionary : Dictionary :=
  { enabled := false
    size := 0
    has := fun _ => true
    hasAnyForChunk := fun _ _ => true }

/-- Source `createDictionary`.  File reads are fallible, so the two word-file loads
are modelled as `Option String` (raw file contents, `none` = the read threw
and the `catch` branch runs). -/
def createDictionary (dictionaryEnabledEnv : Option String)
    (localRaw packageRaw : Option String) : Dictionary :=
  let requested := dictionaryEnabledEnv != some "false"
  if !requested then disabledDictionary
  else
    match localRaw, packageRaw with
    | some localSrc, some packageSrc =>
        let localWords := parseWords localSrc
        let packageWords := parseWords packageSrc
        let words := (packageWords ++ localWords).dedup
        if words.length = 0 then disabledDictionary
        else
          { enabled := true
            size := words.length
            has := fun word => words.contains (toLowerStr word)
            hasAnyForChunk := fun chunkInput usedWords =>
              let chunk := toLowerStr chunkInput
              let candidates := words.filter (fun word => stringIncludes word chunk)
              if candidates.length = 0 then false
              else if usedWords.length = 0 then true
              else candidates.any (fun word => !(usedWords.contains word))
          }
    | _, _ => disabledDictionary

/-! ## Data model (types.ts) -/

inductive Phase where
  | lobby
  | in_game
  | results
deriving DecidableEq, Repr

structure Player where
  id : String
  name : String
  joinedAt : Nat
  socketId : Option String
  connected : Bool
  score : Nat
  lives : Nat
  eliminated : Bool
deriving DecidableEq, Repr

structure RoomConfig where
  turnSeconds : Nat
  startingLives : Nat
  dictionaryEnabled : Bool
deriving DecidableEq, Repr

structure RoomState where
  code : String
  hostId : String
  phase : Phase
  config : RoomConfig
  players : List Player
  usedWords : List String
  usedWordsOrdered : List String
  activePlayerId : Option String
  currentChunk : Option String
  previousChunk : Option String
  timerEndsAt : Option Nat
  winnerId : Option String
  lastEvent : String
  createdAt : Nat
  updatedAt : Nat
  emptySince : Option Nat
deriving DecidableEq, Repr

structure SocketSession where
  roomCode : String
  playerId : String
deriving DecidableEq, Repr

structure OperationResult where
  ok : Bool
  error : Option String := none
  roomCode : Option String := none
  playerId : Option String := none
deriving DecidableEq, Repr

structure ServerState where
  rooms : List (String × RoomState)
  socketSessions : List (String × SocketSession)
  lastSubmitAtBySocket : List (String × Nat)
deriving DecidableEq, Repr

/-! ## Association-list model of JS `Map` -/

def lookupKey {α : Type} (m : List (String × α)) (k : String) : Option α :=
  (m.find? (fun e => e.1 == k)).map (fun e => e.2)

def containsKey {α : Type} (m : List (String × α)) (k : String) : Bool :=
  (m.find? (fun e => e.1 == k)).isSome

/-- Source `Map.set`: replace in place when the key exists, else append. -/
def setKey {α : Type} (m : List (String × α)) (k : String) (v : α) : List (String × α) :=
  if containsKey m k then m.map (fun e => if e.1 == k then (k, v) else e)
  else m ++ [(k, v)]

/-- Source `Map.delete`. -/
def eraseKey {α : Type} (m : List (String × α)) (k : String) : List (String × α) :=
  m.filter (fun e => e.1 != k)

/-! ## Turn engine helpers -/

def isEligible (p : Player) : Bool :=
  p.connected && !p.eliminated

def getEligiblePlayers (room : RoomState) : List Player :=
  room.players.filter isEligible

def playersFind (players : List Player) (playerId : String) : Option Player :=
  players.find? (fun p => p.id == playerId)

def getPlayer (room : RoomState) (playerId : String) : Option Player :=
  playersFind room.players playerId

/-- mutate-in-place of the player object returned by `getPlayer`: update the
first list entry whose id matches. -/
def updateFirst (players : List Player) (playerId : String) (f : Player → Player) :
    List Player :=
  match players with
  | [] => []
  | p :: rest =>
      if p.id == playerId then f p :: rest
      else p :: updateFirst rest playerId f

/-- Source `Array.findIndex`, as an `Option Nat` instead of `-1` for a missing entry. -/
def findIndex (p : Player → Bool) : List Player → Option Nat
  | [] => none
  | x :: xs => if p x then some 0 else (findIndex p xs).map (fun n => n + 1)

/-- the `for (offset = 1; offset <= length; offset += 1)` scan of
`getNextEligiblePlayer`, with the remaining iteration count explicit. -/
def scanFrom (players : List Player) (startIndex : Nat) : Nat → Nat → Option Player
  | 0, _ => none
  | count + 1, offset =>
      match players[(startIndex + offset) % players.length]? with
      | none => none
      | some candidate =>
          if candidate.connected && !candidate.eliminated then some candidate
          else scanFrom players startIndex count (offset + 1)

def getNextEligiblePlayer (room : RoomState) (fromPlayerId : Option String) :
    Option Player :=
  let eligible := getEligiblePlayers room
  if eligible.length = 0 then none
  else
    match fromPlayerId with
    | none => eligible.head?
    | some pid =>
        match findIndex (fun p => p.id == pid) room.players with
        | none => eligible.head?
        | some startIndex => scanFrom room.players startIndex room.players.length 1

/-- Source `chooseChunk`, with the random draw as an index argument `r`. -/
def chooseChunk (previousChunk : Option String) (r : Nat) : String :=
  let pool := CHUNKS.filter (fun chunk => some chunk != previousChunk)
  let source := if pool.length > 0 then pool else CHUNKS
  source.getD (r % source.length) ""

def finishGame (room : RoomState) (winner : Option Player) (now : Nat) : RoomState :=
  { room with
      phase := Phase.results
      winnerId := winner.map (fun w => w.id)
      activePlayerId := none
      currentChunk := none
      timerEndsAt := none
      updatedAt := now
      lastEvent :=
        match winner with
        | some w => w.name ++ " wins the match."
        | none => "Match ended." }

def advanceTurn (room : RoomState) (fromPlayerId : Option String) (now r : Nat) :
    RoomState :=
  let eligible := getEligiblePlayers room
  if eligible.length ≤ 1 then finishGame room eligible.head? now
  else
    match getNextEligiblePlayer room fromPlayerId with
    | none => finishGame room eligible.head? now
    | some next =>
        { room with
            activePlayerId := some next.id
            previousChunk := room.currentChunk
            currentChunk := some (chooseChunk room.currentChunk r)
            timerEndsAt := some (now + room.config.turnSeconds * 1000) }

/-- Models `currentHost?.connected` of `ensureHostIsConnected` (false when absent). -/
def hostConnected (room : RoomState) : Bool :=
  match getPlayer room room.hostId with
  | some currentHost => currentHost.connected
  | none => false

def ensureHostIsConnected (room : RoomState) : RoomState :=
  if hostConnected room then room
  else
    match room.players.find? (fun p => p.connected) with
    | some nextHost =>
        { room with hostId := nextHost.id, lastEvent := nextHost.name ++ " is now host." }
    | none => room

/-! ## GameService operations

Each method takes the `socketId` and payload of the inbound event plus the
`Date.now()` timestamp `now`; methods that draw randomness additionally take
the drawn value (`roomCode` / `playerId` for generated identifiers, `r` for
the chunk index).  Methods returning an acknowledgement produce
`ServerState × OperationResult`; the snapshot echoed in acknowledgements is a
projection of the stored room and is not modelled separately. -/

def errResult (message : String) : OperationResult :=
  { ok := false, error := some message }

def bindSocketSession (st : ServerState) (socketId roomCode playerId : String) :
    ServerState :=
  { st with socketSessions := setKey st.socketSessions socketId ⟨roomCode, playerId⟩ }

def socketOwnsPlayer (st : ServerState) (socketId roomCode playerId : String) : Bool :=
  match lookupKey st.socketSessions socketId with
  | some session => session.roomCode == roomCode && session.playerId == playerId
  | none => false

structure UpdateSettingsPayload where
  roomCode : String
  playerId : String
  turnSeconds : Option Int := none
  startingLives : Option Int := none
  dictionaryEnabled : Option Bool := none

structure PlayerActionPayload where
  roomCode : String
  playerId : String

structure SubmitWordPayload where
  roomCode : String
  playerId : String
  word : String

def createRoom (dict : Dictionary) (st : ServerState)
    (socketId nameInput roomCode playerId : String) (now : Nat) :
    ServerState × OperationResult :=
  let name := sanitizePlayerName nameInput
  if name = "" then (st, errResult "Enter a valid display name.")
  else
    let host : Player :=
      { id := playerId, name := name, joinedAt := now, socketId := some socketId
        connected := true, score := 0, lives := DEFAULT_STARTING_LIVES
        eliminated := false }
    let room : RoomState :=
      { code := roomCode
        hostId := host.id
        phase := Phase.lobby
        config :=
          { turnSeconds := DEFAULT_TURN_SECONDS
            startingLives := DEFAULT_STARTING_LIVES
            dictionaryEnabled := dict.enabled }
        players := [host]
        usedWords := []
        usedWordsOrdered := []
        activePlayerId := none
        currentChunk := none
        previousChunk := none
        timerEndsAt := none
        winnerId := none
        lastEvent := "Room created. Waiting for players."
        createdAt := now
        updatedAt := now
        emptySince := none }
    let st1 := { st with rooms := setKey st.rooms roomCode room }
    let st2 := bindSocketSession st1 socketId roomCode playerId
    (st2, { ok := true, roomCode := some roomCode, playerId := some playerId })

def joinRoom (st : ServerState) (socketId roomCodeInput nameInput playerId : String)
    (now : Nat) : ServerState × OperationResult :=
  let roomCode := sanitizeRoomCode roomCodeInput
  let name := sanitizePlayerName nameInput
  if roomCode = "" then (st, errResult "Enter a valid room code.")
  else if name = "" then (st, errResult "Enter a valid display name.")
  else
    match lookupKey st.rooms roomCode with
    | none => (st, errResult "Room not found.")
    | some room =>
        if room.phase ≠ Phase.lobby then (st, errResult "Game already started in this room.")
        else if MAX_PLAYERS_PER_ROOM ≤ room.players.length then (st, errResult "Room is full.")
        else if room.players.any (fun p => toLowerStr p.name == toLowerStr name) then
          (st, errResult "Display name already taken in this room.")
        else
          let player : Player :=
            { id := playerId, name := name, joinedAt := now, socketId := some socketId
              connected := true, score := 0, lives := room.config.startingLives
              eliminated := false }
          let room1 :=
            { room with
                players := room.players ++ [player]
                emptySince := none
                updatedAt := now
                lastEvent := player.name ++ " joined the room." }
          let st1 := bindSocketSession st socketId room1.code player.id
          let st2 := { st1 with rooms := setKey st1.rooms roomCode room1 }
          (st2, { ok := true, roomCode := some room1.code, playerId := some playerId })

/-- the roster mutation of `reconnectPlayer` on the found player -/
def reconnectApply (room : RoomState) (player : Player) (socketId newName : String) :
    RoomState :=
  { room with
      players := updateFirst room.players player.id
        (fun p => { p with name := newName, socketId := some socketId
                           connected := true }) }

/-- the mid-game active-player repair of `reconnectPlayer` -/
def reconnectResume (room2 : RoomState) (now r : Nat) : RoomState :=
  if room2.phase = Phase.in_game ∧ room2.activePlayerId = none then
    match getNextEligiblePlayer room2 none with
    | some next =>
        { room2 with
            activePlayerId := some next.id
            currentChunk := some (chooseChunk room2.currentChunk r)
            timerEndsAt := some (now + room2.config.turnSeconds * 1000) }
    | none => room2
  else room2

def reconnectPlayer (st : ServerState) (socketId roomCodeInput playerId : String)
    (nameInput : Option String) (now r : Nat) : ServerState × OperationResult :=
  let roomCode := sanitizeRoomCode roomCodeInput
  match lookupKey st.rooms roomCode with
  | none => (st, errResult "Room no longer exists.")
  | some room =>
      match getPlayer room playerId with
      | none => (st, errResult "Player not found in room.")
      | some player =>
          let maybeName :=
            match nameInput with
            | some n => sanitizePlayerName n
            | none => ""
          let duplicateName :=
            room.players.any
              (fun entry =>
                entry.id != player.id && toLowerStr entry.name == toLowerStr maybeName)
          let newName :=
            if maybeName ≠ "" && maybeName ≠ player.name && !duplicateName then maybeName
            else player.name
          let room1 := reconnectApply room player socketId newName
          let st1 := bindSocketSession st socketId room1.code player.id
          let room2 := ensureHostIsConnected { room1 with emptySince := none }
          let room3 := reconnectResume room2 now r
          let room4 := { room3 with updatedAt := now }
          let st2 := { st1 with rooms := setKey st1.rooms roomCode room4 }
          (st2, { ok := true, roomCode := some room4.code, playerId := some player.id })

def updateSettings (dict : Dictionary) (st : ServerState) (socketId : String)
    (payload : UpdateSettingsPayload) (now : Nat) : ServerState × OperationResult :=
  let roomCode := sanitizeRoomCode payload.roomCode
  match lookupKey st.rooms roomCode with
  | none => (st, errResult "Room not found.")
  | some room =>
      if !socketOwnsPlayer st socketId roomCode payload.playerId then
        (st, errResult "Action not allowed for this socket.")
      else if room.phase ≠ Phase.lobby then
        (st, errResult "Settings can only be changed in lobby.")
      else if room.hostId ≠ payload.playerId then
        (st, errResult "Only the host can change settings.")
      else
        let config0 := room.config
        let config1 :=
          match payload.turnSeconds with
          | some v =>
              { config0 with
                  turnSeconds := (clampInt v MIN_TURN_SECONDS MAX_TURN_SECONDS).toNat }
          | none => config0
        let config2 :=
          match payload.startingLives with
          | some v =>
              { config1 with
                  startingLives := (clampInt v MIN_STARTING_LIVES MAX_STARTING_LIVES).toNat }
          | none => config1
        let config3 :=
          match payload.dictionaryEnabled with
          | some b => { config2 with dictionaryEnabled := b && dict.enabled }
          | none => config2
        let room1 :=
          { room with config := config3, updatedAt := now
                      lastEvent := "Host updated game settings." }
        let st1 := { st with rooms := setKey st.rooms roomCode room1 }
        (st1, { ok := true })

/-- the per-match reset applied by `startGame` before first-player selection -/
def startGameReset (room : RoomState) : RoomState :=
  { room with
      phase := Phase.in_game
      usedWords := []
      usedWordsOrdered := []
      winnerId := none
      previousChunk := none
      players := room.players.map
        (fun p => { p with score := 0, lives := room.config.startingLives
                           eliminated := false }) }

def startGame (st : ServerState) (socketId : String) (payload : PlayerActionPayload)
    (now r : Nat) : ServerState × OperationResult :=
  let roomCode := sanitizeRoomCode payload.roomCode
  match lookupKey st.rooms roomCode with
  | none => (st, errResult "Room not found.")
  | some room =>
      if !socketOwnsPlayer st socketId roomCode payload.playerId then
        (st, errResult "Action not allowed for this socket.")
      else if room.hostId ≠ payload.playerId then
        (st, errResult "Only the host can start the game.")
      else if room.phase ≠ Phase.lobby then
        (st, errResult "Game already running.")
      else if (room.players.filter (fun p => p.connected)).length < MIN_PLAYERS_TO_START then
        (st, errResult "Need at least 2 connected players to start.")
      else
        let room1 := startGameReset room
        match getNextEligiblePlayer room1 none with
        | none =>
            -- the room object was already mutated in place; only the phase is
            -- reverted before the error return, the resets persist
            let room2 := { room1 with phase := Phase.lobby }
            ({ st with rooms := setKey st.rooms roomCode room2 },
             errResult "No eligible players to start the game.")
        | some firstActive =>
            let room2 :=
              { room1 with
                  activePlayerId := some firstActive.id
                  currentChunk := some (chooseChunk none r)
                  timerEndsAt := some (now + room1.config.turnSeconds * 1000)
                  lastEvent := firstActive.name ++ " starts with the bomb."
                  updatedAt := now }
            ({ st with rooms := setKey st.rooms roomCode room2 }, { ok := true })

/-- the regex test `^[a-z]+$` of `submitWord` -/
def validWordShape (word : String) : Bool :=
  word ≠ "" && word.toList.all isLowerAlpha

/-- Source `const chunk = room.currentChunk?.toLowerCase(); !chunk || !word.includes(chunk)`
(negated): the falsy test also fails when `currentChunk` is null. -/
def chunkSatisfied (room : RoomState) (word : String) : Bool :=
  match room.currentChunk with
  | none => false
  | some c => stringIncludes word (toLowerStr c)

/-- the part of `submitWord` following the rate-limit stamp (the source keeps
running with the same mutated service state). -/
def submitWordBody (dict : Dictionary) (st : ServerState) (socketId : String)
    (payload : SubmitWordPayload) (now r : Nat) : ServerState × OperationResult :=
    let roomCode := sanitizeRoomCode payload.roomCode
    match lookupKey st.rooms roomCode with
    | none => (st, errResult "Room not found.")
    | some room =>
        if !socketOwnsPlayer st socketId roomCode payload.playerId then
          (st, errResult "Action not allowed for this socket.")
        else if room.phase ≠ Phase.in_game then
          (st, errResult "Game is not active.")
        else
          match getPlayer room payload.playerId with
          | none => (st, errResult "You are not an active player.")
          | some player =>
              if !player.connected || player.eliminated then
                (st, errResult "You are not an active player.")
              else if room.activePlayerId ≠ some player.id then
                (st, errResult "It is not your turn.")
              else
                let word := sanitizeWord payload.word
                if !(validWordShape word) then
                  (st, errResult "Word must contain letters A-Z only.")
                else if word.length < 3 then
                  (st, errResult "Word must be at least 3 letters.")
                else
                  if !(chunkSatisfied room word) then
                    (st, errResult ("Word must include chunk \"" ++
                      (room.currentChunk.getD "null") ++ "\"."))
                  else if room.usedWords.contains word then
                    (st, errResult "Word already used in this match.")
                  else if room.config.dictionaryEnabled && !(dict.has word) then
                    (st, errResult "Word not found in dictionary.")
                  else
                    let room1 :=
                      { room with
                          usedWords := room.usedWords.insert word
                          usedWordsOrdered := room.usedWordsOrdered ++ [word]
                          players := updateFirst room.players player.id
                            (fun p => { p with score := p.score + 1 })
                          lastEvent := player.name ++ " played \"" ++ word ++ "\"." }
                    let room2 := advanceTurn room1 (some player.id) now r
                    let room3 := { room2 with updatedAt := now }
                    ({ st with rooms := setKey st.rooms roomCode room3 }, { ok := true })

def submitWord (dict : Dictionary) (st : ServerState) (socketId : String)
    (payload : SubmitWordPayload) (now r : Nat) : ServerState × OperationResult :=
  let lastSubmit := (lookupKey st.lastSubmitAtBySocket socketId).getD 0
  if now - lastSubmit < SUBMIT_RATE_LIMIT_MS then
    (st, errResult "Submitting too quickly. Slow down slightly.")
  else
    submitWordBody dict
      { st with lastSubmitAtBySocket := setKey st.lastSubmitAtBySocket socketId now }
      socketId payload now r

def playAgain (st : ServerState) (socketId : String) (payload : PlayerActionPayload)
    (now : Nat) : ServerState × OperationResult :=
  let roomCode := sanitizeRoomCode payload.roomCode
  match lookupKey st.rooms roomCode with
  | none => (st, errResult "Room not found.")
  | some room =>
      if !socketOwnsPlayer st socketId roomCode payload.playerId then
        (st, errResult "Action not allowed for this socket.")
      else if room.hostId ≠ payload.playerId then
        (st, errResult "Only the host can reset the match.")
      else if room.phase ≠ Phase.results then
        (st, errResult "Match has not ended yet.")
      else
        let room1 :=
          { room with
              phase := Phase.lobby
              activePlayerId := none
              currentChunk := none
              previousChunk := none
              timerEndsAt := none
              winnerId := none
              usedWords := []
              usedWordsOrdered := []
              players := room.players.map
                (fun p => { p with score := 0, lives := room.config.startingLives
                                   eliminated := false })
              lastEvent := "Match reset. Host can start a new game."
              updatedAt := now }
        ({ st with rooms := setKey st.rooms roomCode room1 }, { ok := true })

/-- Source `player.socketId = null; player.connected = false`. -/
def dropConnection (p : Player) : Player :=
  { p with socketId := none, connected := false }

def markDisconnected (room : RoomState) (pid : String) : RoomState :=
  { room with players := updateFirst room.players pid dropConnection }

/-- host reassignment step of `handleDisconnect` -/
def hostFix (room1 : RoomState) (player : Player) : RoomState :=
  if player.id = room1.hostId then ensureHostIsConnected room1 else room1

/-- the mid-game branch of `handleDisconnect` -/
def disconnectTurn (room2 : RoomState) (player : Player) (now r : Nat) : RoomState :=
  if room2.phase = Phase.in_game then
    if room2.activePlayerId = some player.id then
      advanceTurn
        { room2 with lastEvent := player.name ++ " disconnected. Bomb moved to next player." }
        (some player.id) now r
    else
      if (getEligiblePlayers room2).length ≤ 1 then
        finishGame room2 (getEligiblePlayers room2).head? now
      else room2
  else room2

/-- the empty-since bookkeeping closing `handleDisconnect` -/
def disconnectEpilogue (room3 : RoomState) (now : Nat) : RoomState :=
  { room3 with
      emptySince :=
        if (room3.players.filter (fun p => p.connected)).length = 0 then some now
        else none
      updatedAt := now }

/-- the body of `handleDisconnect` after the early returns: the bound player
was found and still owns this socket. -/
def applyDisconnect (room : RoomState) (player : Player) (now r : Nat) : RoomState :=
  disconnectEpilogue
    (disconnectTurn (hostFix (markDisconnected room player.id) player) player now r) now

def handleDisconnect (st : ServerState) (socketId : String) (now r : Nat) : ServerState :=
  let session? := lookupKey st.socketSessions socketId
  let st1 :=
    { st with
        socketSessions := eraseKey st.socketSessions socketId
        lastSubmitAtBySocket := eraseKey st.lastSubmitAtBySocket socketId }
  match session? with
  | none => st1
  | some session =>
      match lookupKey st.rooms session.roomCode with
      | none => st1
      | some room =>
          match getPlayer room session.playerId with
          | none => st1
          | some player =>
              if player.socketId ≠ some socketId then st1
              else
                { st1 with
                    rooms := setKey st1.rooms session.roomCode
                      (applyDisconnect room player now r) }

/-- the body of `handleTimerExpiry` after its guard (`phase` is `in_game`
and `activePlayerId` is the non-null `activeId`). -/
def expireActive (room : RoomState) (activeId : String) (now r : Nat) : RoomState :=
  match getPlayer room activeId with
  | none =>
      let room1 := advanceTurn room (some activeId) now r
      { room1 with
          lastEvent := "Bomb moved because active player was unavailable."
          updatedAt := now }
  | some active =>
      if !active.connected || active.eliminated then
        let room1 := advanceTurn room (some activeId) now r
        { room1 with
            lastEvent := "Bomb moved because active player was unavailable."
            updatedAt := now }
      else
        -- `active.lives = Math.max(0, active.lives - 1)` is truncated
        -- subtraction on `Nat`
        let newLives := active.lives - 1
        let room1 :=
          { room with
              players := updateFirst room.players activeId
                (fun p => { p with lives := p.lives - 1
                                   eliminated := if p.lives - 1 = 0 then true
                                                 else p.eliminated })
              lastEvent :=
                if newLives = 0 then active.name ++ " exploded and was eliminated."
                else active.name ++ " exploded and lost a life." }
        let room2 := advanceTurn room1 (some active.id) now r
        { room2 with updatedAt := now }

def handleTimerExpiry (room : RoomState) (now r : Nat) : RoomState :=
  match room.phase, room.activePlayerId with
  | Phase.in_game, some activeId => expireActive room activeId now r
  | _, _ => room

/-- the per-room share of the 250 ms `tick`: expiry detection (`!activePlayerId`
is the JS falsiness test on the nullable id). -/
def tickRoom (room : RoomState) (now r : Nat) : RoomState :=
  if room.phase ≠ Phase.in_game then room
  else
    match room.activePlayerId, room.timerEndsAt with
    | some _, some deadline =>
        if deadline ≤ now then handleTimerExpiry room now r else room
    | _, _ => room

def tick (st : ServerState) (now r : Nat) : ServerState :=
  { st with rooms := st.rooms.map (fun e => (e.1, tickRoom e.2 now r)) }

def cleanupRooms (st : ServerState) (now : Nat) : ServerState :=
  { st with
      rooms := st.rooms.filter
        (fun e =>
          !(match e.2.emptySince with
            | some since => EMPTY_ROOM_TTL_MS < now - since
            | none => false)) }

/-! ## Generic list lemmas -/

theorem getD_mem_of_lt {l : List String} {d : String} {n : Nat} (h : n < l.length) :
    l.getD n d ∈ l := by
  rw [List.getD_eq_getElem?_getD, List.getElem?_eq_getElem h]
  exact List.getElem_mem h

/-! ## Chunk selection -/

theorem chooseChunk_ne (prev : String) (r : Nat) : chooseChunk (some prev) r ≠ prev := by
  unfold chooseChunk
  simp only
  set pool := CHUNKS.filter (fun chunk => some chunk != some prev) with hpooldef
  have hmem : ∀ x ∈ pool, x ≠ prev := by
    intro x hx
    have := (List.mem_filter.mp hx).2
    simpa [bne_iff_ne] using this
  have hpool : pool ≠ [] := by
    by_cases hA : prev = "AR"
    · have hm : ("ER" : String) ∈ pool := by
        rw [hpooldef]
        apply List.mem_filter.mpr
        refine ⟨by decide, ?_⟩
        subst hA
        decide
      exact List.ne_nil_of_mem hm
    · have hm : ("AR" : String) ∈ pool := by
        rw [hpooldef]
        apply List.mem_filter.mpr
        refine ⟨by decide, ?_⟩
        simp [bne_iff_ne]
        intro hcontr
        exact hA hcontr.symm
      exact List.ne_nil_of_mem hm
  have hlen : 0 < pool.length := List.length_pos.mpr hpool
  rw [if_pos hlen]
  exact hmem _ (getD_mem_of_lt (Nat.mod_lt _ hlen))

/-- C6: the chunk chosen after a previous chunk differs from that previous
chunk whenever the catalog has more than one entry, and consequently the
`currentChunk` and `previousChunk` of a room that just advanced its turn are
never equal. -/
theorem claim_chunk_no_repeat :
    (∀ (prev : String) (r : Nat), 1 < CHUNKS.length → chooseChunk (some prev) r ≠ prev) ∧
    (∀ (room : RoomState) (fromPlayerId : Option String) (now r : Nat),
      (advanceTurn room fromPlayerId now r).phase = Phase.results ∨
      (advanceTurn room fromPlayerId now r).currentChunk ≠
        (advanceTurn room fromPlayerId now r).previousChunk) := by
  constructor
  · intro prev r _
    exact chooseChunk_ne prev r
  · intro room fromPlayerId now r
    unfold advanceTurn
    simp only
    split
    · exact Or.inl rfl
    · split
      · exact Or.inl rfl
      · right
        simp only
        cases hcur : room.currentChunk with
        | none => simp
        | some p =>
            simp only [Option.some.injEq, ne_eq]
            intro hEq
            exact chooseChunk_ne p r hEq

/-- witness for C6 at a concrete previous chunk and random draw -/
theorem claim_chunk_no_repeat_witness : chooseChunk (some "AR") 0 ≠ "AR" :=
  claim_chunk_no_repeat.1 "AR" 0 (by decide)

/-! ## Next-player selection (C5) -/

/-- Modelled from the words of the spec, for the refinement claim C5: scan the
fixed join-order array strictly after position `i`, wrapping around, and
return the first eligible candidate. -/
def nextEligibleSpec (players : List Player) (i : Nat) : Option Player :=
  (players.drop (i + 1) ++ players.take (i + 1)).find? isEligible

theorem findIndex_lt_length {p : Player → Bool} :
    ∀ {l : List Player} {i : Nat}, findIndex p l = some i → i < l.length := by
  intro l
  induction l with
  | nil => intro i h; simp [findIndex] at h
  | cons x xs ih =>
      intro i h
      simp only [findIndex] at h
      by_cases hp : p x
      · rw [if_pos hp] at h
        cases h
        simp
      · rw [if_neg hp] at h
        cases hfi : findIndex p xs with
        | none => rw [hfi] at h; simp at h
        | some j =>
            rw [hfi] at h
            simp only [Option.map_some'] at h
            cases h
            have := ih hfi
            simp only [List.length_cons]
            omega

theorem find?_eq_filter_head? {α : Type} (p : α → Bool) :
    ∀ l : List α, l.find? p = (l.filter p).head? := by
  intro l
  induction l with
  | nil => rfl
  | cons x xs ih =>
      rw [List.filter_cons]
      by_cases hp : p x
      · rw [List.find?_cons_of_pos _ hp, if_pos hp]
        rfl
      · rw [List.find?_cons_of_neg _ hp, if_neg hp]
        exact ih

theorem rotated_length {players : List Player} {i : Nat} (hi : i < players.length) :
    (players.drop (i + 1) ++ players.take (i + 1)).length = players.length := by
  simp only [List.length_append, List.length_drop, List.length_take]
  omega

theorem rotated_getElem? {players : List Player} {i : Nat} (hi : i < players.length)
    {j : Nat} (hj : j < players.length) :
    (players.drop (i + 1) ++ players.take (i + 1))[j]? =
      players[(i + 1 + j) % players.length]? := by
  by_cases hcase : i + 1 + j < players.length
  · have hjlt : j < (players.drop (i + 1)).length := by
      simp only [List.length_drop]; omega
    rw [List.getElem?_append_left hjlt, List.getElem?_drop,
        Nat.mod_eq_of_lt hcase]
  · have hge : players.length ≤ i + 1 + j := Nat.le_of_not_lt hcase
    have hlen : (players.drop (i + 1)).length ≤ j := by
      simp only [List.length_drop]; omega
    rw [List.getElem?_append_right hlen]
    have hk : j - (players.drop (i + 1)).length = i + 1 + j - players.length := by
      simp only [List.length_drop]; omega
    rw [hk]
    have hklt : i + 1 + j - players.length < i + 1 := by omega
    rw [List.getElem?_take_of_lt hklt]
    have hmod : (i + 1 + j) % players.length = i + 1 + j - players.length := by
      rw [Nat.mod_eq_sub_mod hge, Nat.mod_eq_of_lt (by omega)]
    rw [hmod]

theorem scanFrom_zero {players : List Player} {i offset : Nat} :
    scanFrom players i 0 offset = none := rfl

theorem scanFrom_succ {players : List Player} {i c offset : Nat} :
    scanFrom players i (c + 1) offset =
      match players[(i + offset) % players.length]? with
      | none => none
      | some candidate =>
          if candidate.connected && !candidate.eliminated then some candidate
          else scanFrom players i c (offset + 1) := rfl

theorem scanFrom_eq_find {players : List Player} {i : Nat} (hi : i < players.length) :
    ∀ (count j : Nat), j + count ≤ players.length →
      scanFrom players i count (j + 1) =
        (((players.drop (i + 1) ++ players.take (i + 1)).drop j).take count).find?
          isEligible := by
  intro count
  induction count with
  | zero => intro j h; rw [scanFrom_zero, List.take_zero, List.find?_nil]
  | succ c ih =>
      intro j h
      have hj : j < players.length := by omega
      have hjR : j < (players.drop (i + 1) ++ players.take (i + 1)).length := by
        rw [rotated_length hi]; exact hj
      have hr := rotated_getElem? hi hj
      rw [List.getElem?_eq_getElem hjR] at hr
      have hidx : i + (j + 1) = i + 1 + j := by omega
      rw [scanFrom_succ, hidx, ← hr]
      rw [List.drop_eq_getElem_cons hjR, List.take_succ_cons]
      by_cases hel :
          ((players.drop (i + 1) ++ players.take (i + 1))[j].connected &&
            !(players.drop (i + 1) ++ players.take (i + 1))[j].eliminated) = true
      · rw [List.find?_cons_of_pos _ (show isEligible _ = true from hel)]
        simp only [hel, if_true]
      · rw [List.find?_cons_of_neg _ (show ¬ isEligible _ = true from hel)]
        simp only [hel, if_false, Bool.false_eq_true]
        exact ih (j + 1) (by omega)

theorem scanFrom_full {players : List Player} {i : Nat} (hi : i < players.length) :
    scanFrom players i players.length 1 = nextEligibleSpec players i := by
  have h := scanFrom_eq_find hi players.length 0 (by omega)
  rw [Nat.zero_add] at h
  rw [h, nextEligibleSpec, List.drop_zero]
  rw [← rotated_length hi, List.take_length]

theorem scanFrom_some {players : List Player} {i : Nat} {c : Player} :
    ∀ {count offset : Nat}, scanFrom players i count offset = some c →
      c ∈ players ∧ isEligible c = true := by
  intro count
  induction count with
  | zero => intro offset h; rw [scanFrom_zero] at h; exact absurd h (by simp)
  | succ k ih =>
      intro offset h
      rw [scanFrom_succ] at h
      cases hg : players[(i + offset) % players.length]? with
      | none => rw [hg] at h; exact absurd h (by simp)
      | some cand =>
          rw [hg] at h
          simp only at h
          by_cases hel : (cand.connected && !cand.eliminated) = true
          · rw [if_pos hel] at h
            cases h
            exact ⟨List.getElem?_mem hg, hel⟩
          · rw [if_neg hel] at h
            exact ih h

theorem head?_eligible_sound {room : RoomState} {p : Player}
    (h : (getEligiblePlayers room).head? = some p) :
    p ∈ room.players ∧ isEligible p = true := by
  have hmem : p ∈ getEligiblePlayers room := List.mem_of_mem_head? h
  have := List.mem_filter.mp hmem
  exact ⟨this.1, this.2⟩

theorem getNextEligiblePlayer_none_def (room : RoomState) :
    getNextEligiblePlayer room none =
      if (getEligiblePlayers room).length = 0 then none
      else (getEligiblePlayers room).head? := rfl

theorem getNextEligiblePlayer_some_def (room : RoomState) (pid : String) :
    getNextEligiblePlayer room (some pid) =
      if (getEligiblePlayers room).length = 0 then none
      else
        match findIndex (fun p => p.id == pid) room.players with
        | none => (getEligiblePlayers room).head?
        | some startIndex => scanFrom room.players startIndex room.players.length 1 := rfl

theorem getNextEligiblePlayer_sound {room : RoomState} {f : Option String} {p : Player}
    (h : getNextEligiblePlayer room f = some p) :
    p ∈ room.players ∧ p.connected = true ∧ p.eliminated = false := by
  have key : p ∈ room.players ∧ isEligible p = true := by
    cases f with
    | none =>
        rw [getNextEligiblePlayer_none_def] at h
        split at h
        · exact absurd h (by simp)
        · exact head?_eligible_sound h
    | some pid =>
        rw [getNextEligiblePlayer_some_def] at h
        split at h
        · exact absurd h (by simp)
        · cases hfi : findIndex (fun q => q.id == pid) room.players with
          | none =>
              rw [hfi] at h
              exact head?_eligible_sound h
          | some startIndex =>
              rw [hfi] at h
              exact scanFrom_some h
  have helig := key.2
  simp only [isEligible, Bool.and_eq_true, Bool.not_eq_true'] at helig
  exact ⟨key.1, helig.1, helig.2⟩

/-- C5: next-player selection equals a wrap-around scan strictly after the
starting position; with no starting player it is the first eligible
player in join order; it returns `none` exactly when no eligible player
exists. -/
theorem claim_next_player_selection :
    (∀ (room : RoomState) (pid : String) (i : Nat),
       findIndex (fun p => p.id == pid) room.players = some i →
       getNextEligiblePlayer room (some pid) = nextEligibleSpec room.players i) ∧
    (∀ room : RoomState,
       getNextEligiblePlayer room none = room.players.find? isEligible) ∧
    (∀ (room : RoomState) (f : Option String),
       getNextEligiblePlayer room f = none ↔ getEligiblePlayers room = []) := by
  refine ⟨?_, ?_, ?_⟩
  · intro room pid i hfi
    have hi := findIndex_lt_length hfi
    rw [getNextEligiblePlayer_some_def]
    split
    · next hlen =>
        have hnil : getEligiblePlayers room = [] := List.length_eq_zero.mp hlen
        have hall : ∀ x ∈ room.players.drop (i + 1) ++ room.players.take (i + 1),
            ¬ isEligible x = true := by
          intro x hx
          have hxp : x ∈ room.players := by
            rcases List.mem_append.mp hx with hd | ht
            · exact List.mem_of_mem_drop hd
            · exact List.mem_of_mem_take ht
          intro hel
          have : x ∈ getEligiblePlayers room := List.mem_filter.mpr ⟨hxp, hel⟩
          rw [hnil] at this
          exact absurd this (List.not_mem_nil x)
        rw [nextEligibleSpec]
        exact (List.find?_eq_none.mpr hall).symm
    · rw [hfi]
      exact scanFrom_full hi
  · intro room
    rw [getNextEligiblePlayer_none_def]
    split
    · next hlen =>
        have hnil : getEligiblePlayers room = [] := List.length_eq_zero.mp hlen
        have hall : ∀ x ∈ room.players, ¬ isEligible x = true := by
          intro x hx hel
          have : x ∈ getEligiblePlayers room := List.mem_filter.mpr ⟨hx, hel⟩
          rw [hnil] at this
          exact absurd this (List.not_mem_nil x)
        exact (List.find?_eq_none.mpr hall).symm
    · rw [find?_eq_filter_head? isEligible room.players]
      rfl
  · intro room f
    constructor
    · intro h
      by_contra hne
      have hlen : ¬ (getEligiblePlayers room).length = 0 := by
        intro hz; exact hne (List.length_eq_zero.mp hz)
      obtain ⟨q, hq⟩ := List.exists_mem_of_ne_nil _ hne
      have hqfil := List.mem_filter.mp hq
      cases f with
      | none =>
          rw [getNextEligiblePlayer_none_def, if_neg hlen] at h
          rw [List.head?_eq_none_iff] at h
          exact hne h
      | some pid =>
          rw [getNextEligiblePlayer_some_def, if_neg hlen] at h
          cases hfi : findIndex (fun p => p.id == pid) room.players with
          | none =>
              rw [hfi] at h
              have h2 : (getEligiblePlayers room).head? = none := h
              rw [List.head?_eq_none_iff] at h2
              exact hne h2
          | some i =>
              rw [hfi] at h
              have hi := findIndex_lt_length hfi
              have h2 : scanFrom room.players i room.players.length 1 = none := h
              rw [scanFrom_full hi] at h2
              have hqrot : q ∈ room.players.drop (i + 1) ++ room.players.take (i + 1) := by
                have hsplit := List.take_append_drop (i + 1) room.players
                have hq2 : q ∈ room.players.take (i + 1) ++ room.players.drop (i + 1) := by
                  rw [hsplit]; exact hqfil.1
                rcases List.mem_append.mp hq2 with ht | hd
                · exact List.mem_append.mpr (Or.inr ht)
                · exact List.mem_append.mpr (Or.inl hd)
              have hall := List.find?_eq_none.mp h2
              exact hall q hqrot hqfil.2
    · intro h
      cases f with
      | none =>
          rw [getNextEligiblePlayer_none_def, if_pos (by rw [h]; rfl)]
      | some pid =>
          rw [getNextEligiblePlayer_some_def, if_pos (by rw [h]; rfl)]

/-! ## Frame and unfolding lemmas for the turn engine -/

theorem advanceTurn_def (room : RoomState) (f : Option String) (now r : Nat) :
    advanceTurn room f now r =
      if (getEligiblePlayers room).length ≤ 1 then
        finishGame room (getEligiblePlayers room).head? now
      else
        match getNextEligiblePlayer room f with
        | none => finishGame room (getEligiblePlayers room).head? now
        | some next =>
            { room with
                activePlayerId := some next.id
                previousChunk := room.currentChunk
                currentChunk := some (chooseChunk room.currentChunk r)
                timerEndsAt := some (now + room.config.turnSeconds * 1000) } := rfl

theorem advanceTurn_spec (room : RoomState) (f : Option String) (now r : Nat) :
    advanceTurn room f now r = finishGame room (getEligiblePlayers room).head? now ∨
    (∃ next, getNextEligiblePlayer room f = some next ∧
      advanceTurn room f now r =
        { room with
            activePlayerId := some next.id
            previousChunk := room.currentChunk
            currentChunk := some (chooseChunk room.currentChunk r)
            timerEndsAt := some (now + room.config.turnSeconds * 1000) }) := by
  rw [advanceTurn_def]
  split
  · exact Or.inl rfl
  · cases hn : getNextEligiblePlayer room f with
    | none => exact Or.inl rfl
    | some next => exact Or.inr ⟨next, rfl, rfl⟩

theorem advanceTurn_players (room : RoomState) (f : Option String) (now r : Nat) :
    (advanceTurn room f now r).players = room.players := by
  rcases advanceTurn_spec room f now r with h | ⟨next, _, h⟩ <;> rw [h] <;> rfl

theorem advanceTurn_hostId (room : RoomState) (f : Option String) (now r : Nat) :
    (advanceTurn room f now r).hostId = room.hostId := by
  rcases advanceTurn_spec room f now r with h | ⟨next, _, h⟩ <;> rw [h] <;> rfl

theorem advanceTurn_usedWords (room : RoomState) (f : Option String) (now r : Nat) :
    (advanceTurn room f now r).usedWords = room.usedWords := by
  rcases advanceTurn_spec room f now r with h | ⟨next, _, h⟩ <;> rw [h] <;> rfl

theorem advanceTurn_finish_of_single {room : RoomState} {q : Player}
    (h : getEligiblePlayers room = [q]) (f : Option String) (now r : Nat) :
    advanceTurn room f now r = finishGame room (some q) now := by
  rw [advanceTurn_def, h]
  rfl

/-! ## `updateFirst` and `playersFind` lemmas -/

theorem mem_updateFirst_of_ne {ps : List Player} {pid : String} {f : Player → Player}
    {q : Player} (hq : q ∈ ps) (hne : q.id ≠ pid) : q ∈ updateFirst ps pid f := by
  induction ps with
  | nil => exact absurd hq (List.not_mem_nil q)
  | cons a t ih =>
      rw [updateFirst]
      by_cases ha : (a.id == pid) = true
      · rw [if_pos ha]
        rcases List.mem_cons.mp hq with rfl | hqt
        · exact absurd (eq_of_beq ha) hne
        · exact List.mem_cons_of_mem _ hqt
      · rw [if_neg ha]
        rcases List.mem_cons.mp hq with rfl | hqt
        · exact List.mem_cons_self _ _
        · exact List.mem_cons_of_mem _ (ih hqt)

theorem updateFirst_mem_or {ps : List Player} (pid : String) (f : Player → Player)
    {q : Player} (hq : q ∈ ps) :
    q ∈ updateFirst ps pid f ∨ (q.id = pid ∧ f q ∈ updateFirst ps pid f) := by
  induction ps with
  | nil => exact absurd hq (List.not_mem_nil q)
  | cons a t ih =>
      rw [updateFirst]
      by_cases ha : (a.id == pid) = true
      · rw [if_pos ha]
        rcases List.mem_cons.mp hq with rfl | hqt
        · exact Or.inr ⟨eq_of_beq ha, List.mem_cons_self _ _⟩
        · exact Or.inl (List.mem_cons_of_mem _ hqt)
      · rw [if_neg ha]
        rcases List.mem_cons.mp hq with rfl | hqt
        · exact Or.inl (List.mem_cons_self _ _)
        · rcases ih hqt with h | ⟨hid, hmem⟩
          · exact Or.inl (List.mem_cons_of_mem _ h)
          · exact Or.inr ⟨hid, List.mem_cons_of_mem _ hmem⟩

theorem playersFind_updateFirst_self {ps : List Player} {pid : String}
    {f : Player → Player} {p : Player} (hf : ∀ x, (f x).id = x.id)
    (h : playersFind ps pid = some p) :
    playersFind (updateFirst ps pid f) pid = some (f p) := by
  induction ps with
  | nil => exact absurd h (by simp [playersFind])
  | cons a t ih =>
      rw [updateFirst]
      by_cases ha : (a.id == pid) = true
      · rw [if_pos ha]
        simp only [playersFind, List.find?_cons, ha] at h
        cases h
        simp only [playersFind, List.find?_cons, hf, ha]
      · rw [if_neg ha]
        have ha2 : (a.id == pid) = false := by simpa using ha
        simp only [playersFind, List.find?_cons, ha2] at h
        simp only [playersFind, List.find?_cons, ha2]
        exact ih h

theorem playersFind_updateFirst_ne {ps : List Player} {pid : String}
    {f : Player → Player} (hf : ∀ x, (f x).id = x.id) {q : String} (hne : q ≠ pid) :
    playersFind (updateFirst ps pid f) q = playersFind ps q := by
  induction ps with
  | nil => rfl
  | cons a t ih =>
      rw [updateFirst]
      by_cases ha : (a.id == pid) = true
      · rw [if_pos ha]
        have haq : (a.id == q) = false := by
          apply beq_eq_false_iff_ne.mpr
          intro hcontr
          exact hne (hcontr.symm.trans (eq_of_beq ha))
        simp only [playersFind, List.find?_cons, hf, haq]
      · rw [if_neg ha]
        by_cases haq : (a.id == q) = true
        · simp only [playersFind, List.find?_cons, haq]
        · have haq2 : (a.id == q) = false := by simpa using haq
          simp only [playersFind, List.find?_cons, haq2]
          exact ih

theorem playersFind_some_id {ps : List Player} {pid : String} {p : Player}
    (h : playersFind ps pid = some p) : p.id = pid := by
  have := List.find?_some h
  exact eq_of_beq this

/-! ## Concrete scenario used by the witnesses -/

def pAva : Player :=
  { id := "p1", name := "Ava", joinedAt := 0, socketId := some "s1"
    connected := true, score := 0, lives := 3, eliminated := false }

def pBo : Player :=
  { id := "p2", name := "Bo", joinedAt := 1, socketId := some "s2"
    connected := true, score := 0, lives := 3, eliminated := false }

def gameRoom : RoomState :=
  { code := "R1"
    hostId := "p1"
    phase := Phase.in_game
    config := { turnSeconds := 10, startingLives := 3, dictionaryEnabled := false }
    players := [pAva, pBo]
    usedWords := ["tar"]
    usedWordsOrdered := ["tar"]
    activePlayerId := some "p1"
    currentChunk := some "AR"
    previousChunk := none
    timerEndsAt := some 10000
    winnerId := none
    lastEvent := ""
    createdAt := 0
    updatedAt := 0
    emptySince := none }

/-- witness for C5 at a concrete room and starting player -/
theorem claim_next_player_selection_witness :
    getNextEligiblePlayer gameRoom (some "p1") = nextEligibleSpec gameRoom.players 0 :=
  claim_next_player_selection.1 gameRoom "p1" 0 (by decide)

/-! ## Timer expiry (C4) -/

def livesOf (room : RoomState) (pid : String) : Option Nat :=
  (getPlayer room pid).map (fun p => p.lives)

def eliminatedOf (room : RoomState) (pid : String) : Option Bool :=
  (getPlayer room pid).map (fun p => p.eliminated)

theorem handleTimerExpiry_eq {room : RoomState} {aid : String}
    (hphase : room.phase = Phase.in_game) (hact : room.activePlayerId = some aid)
    (now r : Nat) :
    handleTimerExpiry room now r = expireActive room aid now r := by
  unfold handleTimerExpiry
  rw [hphase, hact]

/-- the decrement applied to the active player on expiry -/
def expiryHit (p : Player) : Player :=
  { p with lives := p.lives - 1
           eliminated := if p.lives - 1 = 0 then true else p.eliminated }

theorem expireActive_ineligible {room : RoomState} {aid : String} {active : Player}
    (hfound : getPlayer room aid = some active)
    (hcond : (!active.connected || active.eliminated) = true) (now r : Nat) :
    expireActive room aid now r =
      { advanceTurn room (some aid) now r with
          lastEvent := "Bomb moved because active player was unavailable."
          updatedAt := now } := by
  unfold expireActive
  rw [hfound]
  simp only [hcond, if_true]

theorem expireActive_eligible {room : RoomState} {aid : String} {active : Player}
    (hfound : getPlayer room aid = some active)
    (hconn : active.connected = true) (helim : active.eliminated = false) (now r : Nat) :
    expireActive room aid now r =
      { advanceTurn
          { room with
              players := updateFirst room.players aid expiryHit
              lastEvent :=
                if active.lives - 1 = 0 then active.name ++ " exploded and was eliminated."
                else active.name ++ " exploded and lost a life." }
          (some active.id) now r with updatedAt := now } := by
  unfold expireActive
  rw [hfound]
  have hcond : (!active.connected || active.eliminated) = false := by
    rw [hconn, helim]
    rfl
  simp only [hcond, Bool.false_eq_true, if_false]
  rfl

/-- C4: on timer expiry with an ineligible active player no lives change;
with an eligible active player exactly that player loses one life (truncated
at zero) and is marked eliminated exactly when the lives reach zero; in both
cases turn advancement then runs, either ending the match or opening a fresh
timer window. -/
theorem claim_timer_expiry_lives (room : RoomState) (now r : Nat) (aid : String)
    (active : Player)
    (hphase : room.phase = Phase.in_game)
    (hactive : room.activePlayerId = some aid)
    (hfound : getPlayer room aid = some active) :
    ((active.connected = false ∨ active.eliminated = true) →
        (handleTimerExpiry room now r).players = room.players) ∧
    (active.connected = true → active.eliminated = false →
        livesOf (handleTimerExpiry room now r) aid = some (active.lives - 1) ∧
        eliminatedOf (handleTimerExpiry room now r) aid =
          some (decide (active.lives - 1 = 0)) ∧
        (∀ pid, pid ≠ aid →
          livesOf (handleTimerExpiry room now r) pid = livesOf room pid ∧
          eliminatedOf (handleTimerExpiry room now r) pid = eliminatedOf room pid)) ∧
    ((handleTimerExpiry room now r).phase = Phase.results ∨
      ((handleTimerExpiry room now r).phase = Phase.in_game ∧
        (handleTimerExpiry room now r).timerEndsAt =
          some (now + room.config.turnSeconds * 1000))) := by
  have hte := handleTimerExpiry_eq hphase hactive now r
  have hhit : ∀ x, (expiryHit x).id = x.id := fun _ => rfl
  refine ⟨?_, ?_, ?_⟩
  · intro hinel
    have hcond : (!active.connected || active.eliminated) = true := by
      rcases hinel with h | h
      · rw [h]; rfl
      · rw [h]; simp
    rw [hte, expireActive_ineligible hfound hcond now r]
    show (advanceTurn room (some aid) now r).players = room.players
    exact advanceTurn_players room (some aid) now r
  · intro hconn helim
    rw [hte, expireActive_eligible hfound hconn helim now r]
    have key : ∀ res : RoomState,
        res.players = updateFirst room.players aid expiryHit →
        livesOf { res with updatedAt := now } aid = some (active.lives - 1) ∧
        eliminatedOf { res with updatedAt := now } aid =
          some (decide (active.lives - 1 = 0)) ∧
        (∀ pid, pid ≠ aid →
          livesOf { res with updatedAt := now } pid = livesOf room pid ∧
          eliminatedOf { res with updatedAt := now } pid = eliminatedOf room pid) := by
      intro res hps
      refine ⟨?_, ?_, ?_⟩
      · simp only [livesOf, getPlayer]
        show (playersFind res.players aid).map _ = _
        rw [hps, playersFind_updateFirst_self hhit hfound]
        rfl
      · simp only [eliminatedOf, getPlayer]
        show (playersFind res.players aid).map _ = _
        rw [hps, playersFind_updateFirst_self hhit hfound]
        by_cases hz : active.lives - 1 = 0
        · simp [expiryHit, hz]
        · simp [expiryHit, hz, helim]
      · intro pid hpid
        constructor
        · simp only [livesOf, getPlayer]
          show (playersFind res.players pid).map _ = _
          rw [hps, playersFind_updateFirst_ne hhit hpid]
        · simp only [eliminatedOf, getPlayer]
          show (playersFind res.players pid).map _ = _
          rw [hps, playersFind_updateFirst_ne hhit hpid]
    exact key _ (by rw [advanceTurn_players])
  · by_cases hel : (!active.connected || active.eliminated) = true
    · rw [hte, expireActive_ineligible hfound hel now r]
      rcases advanceTurn_spec room (some aid) now r with h | ⟨next, _, h⟩
      · left
        show (advanceTurn room (some aid) now r).phase = Phase.results
        rw [h]
        rfl
      · right
        constructor
        · show (advanceTurn room (some aid) now r).phase = Phase.in_game
          rw [h]
          exact hphase
        · show (advanceTurn room (some aid) now r).timerEndsAt = _
          rw [h]
    · have hconn : active.connected = true := by
        rcases Bool.eq_false_or_eq_true active.connected with hc | hc
        · exact hc
        · exact absurd (by rw [hc]; rfl) hel
      have helim : active.eliminated = false := by
        rcases Bool.eq_false_or_eq_true active.eliminated with hc | hc
        · exact absurd (by rw [hc]; simp) hel
        · exact hc
      rw [hte, expireActive_eligible hfound hconn helim now r]
      rcases advanceTurn_spec
          { room with
              players := updateFirst room.players aid expiryHit
              lastEvent :=
                if active.lives - 1 = 0 then active.name ++ " exploded and was eliminated."
                else active.name ++ " exploded and lost a life." }
          (some active.id) now r with h | ⟨next, _, h⟩
      · left
        show (advanceTurn _ (some active.id) now r).phase = Phase.results
        rw [h]
        rfl
      · right
        constructor
        · show (advanceTurn _ (some active.id) now r).phase = Phase.in_game
          rw [h]
          exact hphase
        · show (advanceTurn _ (some active.id) now r).timerEndsAt = _
          rw [h]

/-- witness for C4: the active player at three lives drops to two -/
theorem claim_timer_expiry_lives_witness :
    livesOf (handleTimerExpiry gameRoom 0 0) "p1" = some (pAva.lives - 1) :=
  ((claim_timer_expiry_lives gameRoom 0 0 "p1" pAva rfl rfl (by decide)).2.1
    rfl rfl).1

/-! ## Association-list lemmas -/

theorem lookupKey_cons {α : Type} (a : String × α) (t : List (String × α)) (k : String) :
    lookupKey (a :: t) k = if a.1 == k then some a.2 else lookupKey t k := by
  unfold lookupKey
  rw [List.find?_cons]
  cases ha : a.1 == k
  · simp [ha]
  · simp [ha]

theorem containsKey_cons {α : Type} (a : String × α) (t : List (String × α)) (k : String) :
    containsKey (a :: t) k = (a.1 == k || containsKey t k) := by
  unfold containsKey
  rw [List.find?_cons]
  cases ha : a.1 == k
  · simp [ha]
  · simp [ha]

theorem lookup_map_setEntry {α : Type} (v : α) :
    ∀ (m : List (String × α)) (k : String), containsKey m k = true →
      lookupKey (m.map (fun e => if e.1 == k then (k, v) else e)) k = some v := by
  intro m
  induction m with
  | nil => intro k hc; simp [containsKey] at hc
  | cons a t ih =>
      intro k hc
      rw [List.map_cons]
      by_cases ha : (a.1 == k) = true
      · rw [if_pos ha, lookupKey_cons]
        simp
      · rw [if_neg ha, lookupKey_cons]
        have ha2 : (a.1 == k) = false := by simpa using ha
        rw [ha2]
        simp only [Bool.false_eq_true, if_false]
        rw [containsKey_cons, ha2, Bool.false_or] at hc
        exact ih k hc

theorem find?_none_of_not_contains {α : Type} {m : List (String × α)} {k : String}
    (hc : ¬ containsKey m k = true) : m.find? (fun e => e.1 == k) = none := by
  unfold containsKey at hc
  cases hf : m.find? (fun e => e.1 == k) with
  | none => rfl
  | some e => rw [hf] at hc; exact absurd rfl hc

theorem lookup_setKey_self {α : Type} (m : List (String × α)) (k : String) (v : α) :
    lookupKey (setKey m k v) k = some v := by
  unfold setKey
  by_cases hc : containsKey m k = true
  · rw [if_pos hc]
    exact lookup_map_setEntry v m k hc
  · rw [if_neg hc]
    unfold lookupKey
    rw [List.find?_append, find?_none_of_not_contains hc]
    simp

theorem lookup_setKey_ne {α : Type} {m : List (String × α)} {k k' : String} (v : α)
    (hne : k' ≠ k) : lookupKey (setKey m k v) k' = lookupKey m k' := by
  unfold setKey
  by_cases hc : containsKey m k = true
  · rw [if_pos hc]
    clear hc
    induction m with
    | nil => rfl
    | cons a t ih =>
        rw [List.map_cons]
        by_cases ha : (a.1 == k) = true
        · rw [if_pos ha, lookupKey_cons, lookupKey_cons]
          have h1 : (k == k') = false :=
            beq_eq_false_iff_ne.mpr (fun hh => hne hh.symm)
          have h2 : (a.1 == k') = false :=
            beq_eq_false_iff_ne.mpr (fun hh => hne (hh.symm.trans (eq_of_beq ha)))
          rw [h1, h2]
          simp only [Bool.false_eq_true, if_false]
          exact ih
        · rw [if_neg ha, lookupKey_cons, lookupKey_cons]
          by_cases haq : (a.1 == k') = true
          · rw [haq]
            simp
          · have haq2 : (a.1 == k') = false := by simpa using haq
            rw [haq2]
            simp only [Bool.false_eq_true, if_false]
            exact ih
  · rw [if_neg hc]
    unfold lookupKey
    rw [List.find?_append]
    cases hf : m.find? (fun e => e.1 == k') with
    | some e => simp
    | none =>
        have h1 : (k == k') = false :=
          beq_eq_false_iff_ne.mpr (fun hh => hne hh.symm)
        simp [List.find?_cons, h1]

theorem mem_setKey {α : Type} {m : List (String × α)} {k : String} {v : α}
    {e : String × α} (h : e ∈ setKey m k v) : e ∈ m ∨ e = (k, v) := by
  unfold setKey at h
  by_cases hc : containsKey m k = true
  · rw [if_pos hc] at h
    obtain ⟨a, ha, hae⟩ := List.mem_map.mp h
    by_cases hak : (a.1 == k) = true
    · rw [if_pos hak] at hae
      exact Or.inr hae.symm
    · rw [if_neg hak] at hae
      exact Or.inl (hae ▸ ha)
  · rw [if_neg hc] at h
    rcases List.mem_append.mp h with hm | hone
    · exact Or.inl hm
    · rcases List.mem_cons.mp hone with he | habs
      · exact Or.inr he
      · exact absurd habs (List.not_mem_nil e)

theorem lookupKey_mem {α : Type} {m : List (String × α)} {k : String} {v : α}
    (h : lookupKey m k = some v) : (k, v) ∈ m := by
  unfold lookupKey at h
  cases hf : m.find? (fun e => e.1 == k) with
  | none => rw [hf] at h; exact absurd h (by simp)
  | some e =>
      rw [hf] at h
      simp only [Option.map_some', Option.some.injEq] at h
      have hmem := List.mem_of_find?_eq_some hf
      have hkb := @List.find?_some (String × α) (fun e => e.1 == k) e m hf
      have hk : e.1 = k := eq_of_beq hkb
      have : (k, v) = e := by
        cases e
        simp only [Prod.mk.injEq]
        exact ⟨hk.symm, h.symm⟩
      rw [this]
      exact hmem

/-! ## Disconnect machinery lemmas -/

theorem ensureHost_players (room : RoomState) :
    (ensureHostIsConnected room).players = room.players := by
  unfold ensureHostIsConnected
  split
  · rfl
  · split <;> rfl

theorem ensureHost_phase (room : RoomState) :
    (ensureHostIsConnected room).phase = room.phase := by
  unfold ensureHostIsConnected
  split
  · rfl
  · split <;> rfl

theorem ensureHost_activePlayerId (room : RoomState) :
    (ensureHostIsConnected room).activePlayerId = room.activePlayerId := by
  unfold ensureHostIsConnected
  split
  · rfl
  · split <;> rfl

theorem hostFix_players (room1 : RoomState) (player : Player) :
    (hostFix room1 player).players = room1.players := by
  unfold hostFix
  split
  · exact ensureHost_players room1
  · rfl

theorem hostFix_phase (room1 : RoomState) (player : Player) :
    (hostFix room1 player).phase = room1.phase := by
  unfold hostFix
  split
  · exact ensureHost_phase room1
  · rfl

theorem getEligible_hostFix (room1 : RoomState) (player : Player) :
    getEligiblePlayers (hostFix room1 player) = getEligiblePlayers room1 := by
  unfold getEligiblePlayers
  rw [hostFix_players]

theorem disconnectEpilogue_phase (room3 : RoomState) (now : Nat) :
    (disconnectEpilogue room3 now).phase = room3.phase := rfl

theorem disconnectEpilogue_winnerId (room3 : RoomState) (now : Nat) :
    (disconnectEpilogue room3 now).winnerId = room3.winnerId := rfl

theorem disconnectEpilogue_hostId (room3 : RoomState) (now : Nat) :
    (disconnectEpilogue room3 now).hostId = room3.hostId := rfl

theorem disconnectTurn_finish {room2 : RoomState} (player : Player) {q : Player}
    (hphase : room2.phase = Phase.in_game)
    (helig : getEligiblePlayers room2 = [q]) (now r : Nat) :
    (disconnectTurn room2 player now r).phase = Phase.results ∧
    (disconnectTurn room2 player now r).winnerId = some q.id := by
  unfold disconnectTurn
  rw [if_pos hphase]
  by_cases hact : room2.activePlayerId = some player.id
  · rw [if_pos hact]
    have helig2 : getEligiblePlayers
        { room2 with
            lastEvent := player.name ++ " disconnected. Bomb moved to next player." } =
        [q] := helig
    rw [advanceTurn_finish_of_single helig2]
    exact ⟨rfl, rfl⟩
  · rw [if_neg hact, helig]
    rw [if_pos (by simp)]
    exact ⟨rfl, rfl⟩

theorem handleDisconnect_eq {st : ServerState} {sid : String} {session : SocketSession}
    {room : RoomState} {player : Player}
    (hsession : lookupKey st.socketSessions sid = some session)
    (hroom : lookupKey st.rooms session.roomCode = some room)
    (hplayer : getPlayer room session.playerId = some player)
    (hsock : player.socketId = some sid) (now r : Nat) :
    handleDisconnect st sid now r =
      { st with
          socketSessions := eraseKey st.socketSessions sid
          lastSubmitAtBySocket := eraseKey st.lastSubmitAtBySocket sid
          rooms := setKey st.rooms session.roomCode (applyDisconnect room player now r) } := by
  simp [handleDisconnect, hsession, hroom, hplayer, hsock]

/-- C3: whenever a turn advance or a disconnect is processed while exactly one
eligible player remains, that same step sets the phase to `results` and the
winner to that sole eligible player. -/
theorem claim_last_eligible_wins :
    (∀ (room : RoomState) (f : Option String) (now r : Nat) (q : Player),
       getEligiblePlayers room = [q] →
       (advanceTurn room f now r).phase = Phase.results ∧
       (advanceTurn room f now r).winnerId = some q.id) ∧
    (∀ (st : ServerState) (sid : String) (now r : Nat) (session : SocketSession)
       (room : RoomState) (player q : Player),
       lookupKey st.socketSessions sid = some session →
       lookupKey st.rooms session.roomCode = some room →
       getPlayer room session.playerId = some player →
       player.socketId = some sid →
       room.phase = Phase.in_game →
       getEligiblePlayers (markDisconnected room player.id) = [q] →
       ∃ room2,
         lookupKey (handleDisconnect st sid now r).rooms session.roomCode = some room2 ∧
         room2.phase = Phase.results ∧ room2.winnerId = some q.id) := by
  constructor
  · intro room f now r q h
    rw [advanceTurn_finish_of_single h]
    exact ⟨rfl, rfl⟩
  · intro st sid now r session room player q hsession hroom hplayer hsock hphase helig
    rw [handleDisconnect_eq hsession hroom hplayer hsock now r]
    refine ⟨applyDisconnect room player now r, ?_, ?_, ?_⟩
    · show lookupKey (setKey st.rooms session.roomCode _) session.roomCode = _
      exact lookup_setKey_self _ _ _
    · have hph2 : (hostFix (markDisconnected room player.id) player).phase =
          Phase.in_game := by
        rw [hostFix_phase]
        exact hphase
      have helig2 : getEligiblePlayers (hostFix (markDisconnected room player.id) player) =
          [q] := by
        rw [getEligible_hostFix]
        exact helig
      have hfin := disconnectTurn_finish player hph2 helig2 now r
      show (disconnectEpilogue _ now).phase = Phase.results
      rw [disconnectEpilogue_phase]
      exact hfin.1
    · have hph2 : (hostFix (markDisconnected room player.id) player).phase =
          Phase.in_game := by
        rw [hostFix_phase]
        exact hphase
      have helig2 : getEligiblePlayers (hostFix (markDisconnected room player.id) player) =
          [q] := by
        rw [getEligible_hostFix]
        exact helig
      have hfin := disconnectTurn_finish player hph2 helig2 now r
      show (disconnectEpilogue _ now).winnerId = some q.id
      rw [disconnectEpilogue_winnerId]
      exact hfin.2

def pBoOut : Player := { pBo with eliminated := true }

def soloRoom : RoomState := { gameRoom with players := [pAva, pBoOut] }

/-- witness for C3: with only Ava eligible, advancing the turn ends the match
with Ava as winner -/
theorem claim_last_eligible_wins_witness :
    (advanceTurn soloRoom (some "p1") 5 0).phase = Phase.results ∧
    (advanceTurn soloRoom (some "p1") 5 0).winnerId = some pAva.id :=
  claim_last_eligible_wins.1 soloRoom (some "p1") 5 0 pAva (by decide)

/-! ## Host reassignment (C8) and stale-socket disconnect (C10) -/

theorem markDisconnected_hostId (room : RoomState) (pid : String) :
    (markDisconnected room pid).hostId = room.hostId := rfl

theorem markDisconnected_players (room : RoomState) (pid : String) :
    (markDisconnected room pid).players = updateFirst room.players pid dropConnection := rfl

theorem ensureHost_not_connected {room : RoomState} (h : hostConnected room = false) :
    ensureHostIsConnected room =
      match room.players.find? (fun p => p.connected) with
      | some nextHost =>
          { room with hostId := nextHost.id, lastEvent := nextHost.name ++ " is now host." }
      | none => room := by
  unfold ensureHostIsConnected
  rw [h]
  simp only [Bool.false_eq_true, if_false]

theorem disconnectTurn_hostId (room2 : RoomState) (player : Player) (now r : Nat) :
    (disconnectTurn room2 player now r).hostId = room2.hostId := by
  unfold disconnectTurn
  split
  · split
    · rw [advanceTurn_hostId]
    · split <;> rfl
  · rfl

/-- C8: when the current host disconnects, the host role moves to the first
connected player in join order of the post-disconnect roster; when nobody is
connected the host id is left unchanged. -/
theorem claim_host_transfer (st : ServerState) (sid : String) (now r : Nat)
    (session : SocketSession) (room : RoomState) (player : Player)
    (hsession : lookupKey st.socketSessions sid = some session)
    (hroom : lookupKey st.rooms session.roomCode = some room)
    (hplayer : getPlayer room session.playerId = some player)
    (hsock : player.socketId = some sid)
    (hhost : room.hostId = player.id) :
    ∃ room2,
      lookupKey (handleDisconnect st sid now r).rooms session.roomCode = some room2 ∧
      (∀ q, (markDisconnected room player.id).players.find? (fun p => p.connected) = some q →
          room2.hostId = q.id) ∧
      ((markDisconnected room player.id).players.find? (fun p => p.connected) = none →
          room2.hostId = room.hostId) := by
  rw [handleDisconnect_eq hsession hroom hplayer hsock now r]
  refine ⟨applyDisconnect room player now r, ?_, ?_⟩
  · show lookupKey (setKey st.rooms session.roomCode _) session.roomCode = _
    exact lookup_setKey_self _ _ _
  · have hid : player.id = session.playerId := playersFind_some_id hplayer
    have hfound2 : getPlayer room player.id = some player := by
      rw [hid]
      exact hplayer
    have hdrop : ∀ x, (dropConnection x).id = x.id := fun _ => rfl
    have h1 : playersFind (updateFirst room.players player.id dropConnection) player.id =
        some (dropConnection player) :=
      playersFind_updateFirst_self hdrop hfound2
    have hHC : hostConnected (markDisconnected room player.id) = false := by
      unfold hostConnected
      rw [markDisconnected_hostId, hhost]
      show (match playersFind (updateFirst room.players player.id dropConnection)
              player.id with
            | some currentHost => currentHost.connected
            | none => false) = false
      rw [h1]
      rfl
    have hcond : player.id = (markDisconnected room player.id).hostId := by
      rw [markDisconnected_hostId]
      exact hhost.symm
    have hfix : hostFix (markDisconnected room player.id) player =
        ensureHostIsConnected (markDisconnected room player.id) := by
      unfold hostFix
      rw [if_pos hcond]
    have hchain : (applyDisconnect room player now r).hostId =
        (ensureHostIsConnected (markDisconnected room player.id)).hostId := by
      unfold applyDisconnect
      rw [disconnectEpilogue_hostId, disconnectTurn_hostId, hfix]
    constructor
    · intro q hq
      rw [hchain, ensureHost_not_connected hHC, hq]
    · intro hq
      rw [hchain, ensureHost_not_connected hHC, hq]
      exact (markDisconnected_hostId room player.id)

/-- C10: a disconnect whose socket no longer matches the current socket of the
bound player removes only the session binding and the rate-limit entry;
rooms and players are untouched. -/
theorem claim_stale_disconnect_noop (st : ServerState) (sid : String) (now r : Nat)
    (session : SocketSession) (room : RoomState) (player : Player)
    (hsession : lookupKey st.socketSessions sid = some session)
    (hroom : lookupKey st.rooms session.roomCode = some room)
    (hplayer : getPlayer room session.playerId = some player)
    (hsock : player.socketId ≠ some sid) :
    handleDisconnect st sid now r =
      { st with
          socketSessions := eraseKey st.socketSessions sid
          lastSubmitAtBySocket := eraseKey st.lastSubmitAtBySocket sid } := by
  simp [handleDisconnect, hsession, hroom, hplayer, hsock]

def wsGame : ServerState :=
  { rooms := [("R1", gameRoom)]
    socketSessions := [("s1", ⟨"R1", "p1"⟩), ("s2", ⟨"R1", "p2"⟩)]
    lastSubmitAtBySocket := [] }

/-- witness for C8: host Ava drops; Bo, earliest connected, becomes host -/
theorem claim_host_transfer_witness :
    ∃ room2,
      lookupKey (handleDisconnect wsGame "s1" 7 0).rooms "R1" = some room2 ∧
      (∀ q, (markDisconnected gameRoom "p1").players.find? (fun p => p.connected) = some q →
          room2.hostId = q.id) ∧
      ((markDisconnected gameRoom "p1").players.find? (fun p => p.connected) = none →
          room2.hostId = gameRoom.hostId) :=
  claim_host_transfer wsGame "s1" 7 0 ⟨"R1", "p1"⟩ gameRoom pAva (by decide) (by decide)
    (by decide) (by decide) (by decide)

def wsStale : ServerState :=
  { wsGame with
      socketSessions :=
        [("s0", ⟨"R1", "p1"⟩), ("s1", ⟨"R1", "p1"⟩), ("s2", ⟨"R1", "p2"⟩)] }

/-- witness for C10: a stale binding for Ava is dropped with no room change -/
theorem claim_stale_disconnect_noop_witness :
    handleDisconnect wsStale "s0" 9 0 =
      { wsStale with
          socketSessions := eraseKey wsStale.socketSessions "s0"
          lastSubmitAtBySocket := eraseKey wsStale.lastSubmitAtBySocket "s0" } :=
  claim_stale_disconnect_noop wsStale "s0" 9 0 ⟨"R1", "p1"⟩ gameRoom pAva (by decide)
    (by decide) (by decide) (by decide)

/-! ## Submission rate limit (C7) -/

theorem submitWordBody_frame (dict : Dictionary) (st : ServerState) (sid : String)
    (payload : SubmitWordPayload) (now r : Nat) :
    (submitWordBody dict st sid payload now r).1.lastSubmitAtBySocket =
      st.lastSubmitAtBySocket := by
  simp only [submitWordBody]
  split
  · rfl
  · rename_i room heq
    by_cases c1 :
        (!socketOwnsPlayer st sid (sanitizeRoomCode payload.roomCode) payload.playerId) = true
    · rw [if_pos c1]
    · rw [if_neg c1]
      by_cases c2 : room.phase ≠ Phase.in_game
      · rw [if_pos c2]
      · rw [if_neg c2]
        cases hg : getPlayer room payload.playerId with
        | none => rfl
        | some player =>
            dsimp only
            by_cases c4 : (!player.connected || player.eliminated) = true
            · rw [if_pos c4]
            · rw [if_neg c4]
              by_cases c5 : room.activePlayerId ≠ some player.id
              · rw [if_pos c5]
              · rw [if_neg c5]
                by_cases c6 : (!validWordShape (sanitizeWord payload.word)) = true
                · rw [if_pos c6]
                · rw [if_neg c6]
                  by_cases c7 : (sanitizeWord payload.word).length < 3
                  · rw [if_pos c7]
                  · rw [if_neg c7]
                    by_cases c8 :
                        (!chunkSatisfied room (sanitizeWord payload.word)) = true
                    · rw [if_pos c8]
                    · rw [if_neg c8]
                      by_cases c9 :
                          room.usedWords.contains (sanitizeWord payload.word) = true
                      · rw [if_pos c9]
                      · rw [if_neg c9]
                        by_cases c10 :
                            (room.config.dictionaryEnabled &&
                              !dict.has (sanitizeWord payload.word)) = true
                        · rw [if_pos c10]
                        · rw [if_neg c10]

theorem submitWord_stamp (dict : Dictionary) (st : ServerState) (sid : String)
    (payload : SubmitWordPayload) (now r : Nat)
    (h : ¬ now - (lookupKey st.lastSubmitAtBySocket sid).getD 0 < SUBMIT_RATE_LIMIT_MS) :
    (submitWord dict st sid payload now r).1.lastSubmitAtBySocket =
      setKey st.lastSubmitAtBySocket sid now := by
  simp only [submitWord]
  rw [if_neg h]
  show (submitWordBody dict _ sid payload now r).1.lastSubmitAtBySocket = _
  rw [submitWordBody_frame]

/-- C7: once a submission is accepted for processing at time `t`, any second
submission on the same connection before `t + 300 ms` is rejected with the
rate-limit error and changes nothing, regardless of its payload. -/
theorem claim_submit_rate_limit (dict : Dictionary) (st : ServerState) (sid : String)
    (p1 p2 : SubmitWordPayload) (t t2 r1 r2 : Nat)
    (hfirst : ¬ t - (lookupKey st.lastSubmitAtBySocket sid).getD 0 < SUBMIT_RATE_LIMIT_MS)
    (hle : t ≤ t2) (hwin : t2 - t < SUBMIT_RATE_LIMIT_MS) :
    submitWord dict (submitWord dict st sid p1 t r1).1 sid p2 t2 r2 =
      ((submitWord dict st sid p1 t r1).1,
       errResult "Submitting too quickly. Slow down slightly.") := by
  have hstamp := submitWord_stamp dict st sid p1 t r1 hfirst
  have hlast :
      (lookupKey (submitWord dict st sid p1 t r1).1.lastSubmitAtBySocket sid).getD 0 =
        t := by
    rw [hstamp, lookup_setKey_self]
    rfl
  conv =>
    lhs
    rw [submitWord]
  rw [hlast]
  rw [if_pos hwin]

/-- witness for C7: a first accepted submission at 1000 ms blocks a second
one at 1200 ms -/
theorem claim_submit_rate_limit_witness :
    submitWord disabledDictionary
        (submitWord disabledDictionary wsGame "s1" ⟨"R1", "p1", "target"⟩ 1000 0).1
        "s1" ⟨"R1", "p1", "stars"⟩ 1200 0 =
      ((submitWord disabledDictionary wsGame "s1" ⟨"R1", "p1", "target"⟩ 1000 0).1,
       errResult "Submitting too quickly. Slow down slightly.") :=
  claim_submit_rate_limit disabledDictionary wsGame "s1" ⟨"R1", "p1", "target"⟩
    ⟨"R1", "p1", "stars"⟩ 1000 1200 0 0 (by decide) (by decide) (by decide)

/-! ## Word reuse (C2) -/

theorem submitWordBody_used_reject (dict : Dictionary) (st : ServerState) (sid : String)
    (payload : SubmitWordPayload) (now r : Nat) (room : RoomState)
    (hroom : lookupKey st.rooms (sanitizeRoomCode payload.roomCode) = some room)
    (hused : room.usedWords.contains (sanitizeWord payload.word) = true) :
    (submitWordBody dict st sid payload now r).2.ok = false ∧
    (submitWordBody dict st sid payload now r).1.rooms = st.rooms := by
  simp only [submitWordBody]
  split
  · exact ⟨rfl, rfl⟩
  · rename_i roomM heq
    rw [hroom] at heq
    injection heq with heq2
    subst heq2
    by_cases c1 :
        (!socketOwnsPlayer st sid (sanitizeRoomCode payload.roomCode) payload.playerId) = true
    · rw [if_pos c1]
      exact ⟨rfl, rfl⟩
    · rw [if_neg c1]
      by_cases c2 : room.phase ≠ Phase.in_game
      · rw [if_pos c2]
        exact ⟨rfl, rfl⟩
      · rw [if_neg c2]
        cases hg : getPlayer room payload.playerId with
        | none => exact ⟨rfl, rfl⟩
        | some player =>
            dsimp only
            by_cases c4 : (!player.connected || player.eliminated) = true
            · rw [if_pos c4]
              exact ⟨rfl, rfl⟩
            · rw [if_neg c4]
              by_cases c5 : room.activePlayerId ≠ some player.id
              · rw [if_pos c5]
                exact ⟨rfl, rfl⟩
              · rw [if_neg c5]
                by_cases c6 : (!validWordShape (sanitizeWord payload.word)) = true
                · rw [if_pos c6]
                  exact ⟨rfl, rfl⟩
                · rw [if_neg c6]
                  by_cases c7 : (sanitizeWord payload.word).length < 3
                  · rw [if_pos c7]
                    exact ⟨rfl, rfl⟩
                  · rw [if_neg c7]
                    by_cases c8 :
                        (!chunkSatisfied room (sanitizeWord payload.word)) = true
                    · rw [if_pos c8]
                      exact ⟨rfl, rfl⟩
                    · rw [if_neg c8]
                      rw [if_pos hused]
                      exact ⟨rfl, rfl⟩

theorem submitWordBody_mono (dict : Dictionary) (st : ServerState) (sid : String)
    (payload : SubmitWordPayload) (now r : Nat) (code2 : String) (room2 : RoomState)
    (h : lookupKey (submitWordBody dict st sid payload now r).1.rooms code2 = some room2) :
    ∃ room0, lookupKey st.rooms code2 = some room0 ∧
      room0.usedWords ⊆ room2.usedWords := by
  revert h
  simp only [submitWordBody]
  split
  · intro h
    exact ⟨room2, h, fun x hx => hx⟩
  · rename_i roomM heq
    by_cases c1 :
        (!socketOwnsPlayer st sid (sanitizeRoomCode payload.roomCode) payload.playerId) = true
    · rw [if_pos c1]
      intro h
      exact ⟨room2, h, fun x hx => hx⟩
    · rw [if_neg c1]
      by_cases c2 : roomM.phase ≠ Phase.in_game
      · rw [if_pos c2]
        intro h
        exact ⟨room2, h, fun x hx => hx⟩
      · rw [if_neg c2]
        cases hg : getPlayer roomM payload.playerId with
        | none =>
            intro h
            exact ⟨room2, h, fun x hx => hx⟩
        | some player =>
            dsimp only
            by_cases c4 : (!player.connected || player.eliminated) = true
            · rw [if_pos c4]
              intro h
              exact ⟨room2, h, fun x hx => hx⟩
            · rw [if_neg c4]
              by_cases c5 : roomM.activePlayerId ≠ some player.id
              · rw [if_pos c5]
                intro h
                exact ⟨room2, h, fun x hx => hx⟩
              · rw [if_neg c5]
                by_cases c6 : (!validWordShape (sanitizeWord payload.word)) = true
                · rw [if_pos c6]
                  intro h
                  exact ⟨room2, h, fun x hx => hx⟩
                · rw [if_neg c6]
                  by_cases c7 : (sanitizeWord payload.word).length < 3
                  · rw [if_pos c7]
                    intro h
                    exact ⟨room2, h, fun x hx => hx⟩
                  · rw [if_neg c7]
                    by_cases c8 :
                        (!chunkSatisfied roomM (sanitizeWord payload.word)) = true
                    · rw [if_pos c8]
                      intro h
                      exact ⟨room2, h, fun x hx => hx⟩
                    · rw [if_neg c8]
                      by_cases c9 :
                          roomM.usedWords.contains (sanitizeWord payload.word) = true
                      · rw [if_pos c9]
                        intro h
                        exact ⟨room2, h, fun x hx => hx⟩
                      · rw [if_neg c9]
                        by_cases c10 :
                            (roomM.config.dictionaryEnabled &&
                              !dict.has (sanitizeWord payload.word)) = true
                        · rw [if_pos c10]
                          intro h
                          exact ⟨room2, h, fun x hx => hx⟩
                        · rw [if_neg c10]
                          intro h
                          by_cases hcode : code2 = sanitizeRoomCode payload.roomCode
                          · subst hcode
                            rw [lookup_setKey_self] at h
                            injection h with h2
                            refine ⟨roomM, heq, ?_⟩
                            rw [← h2]
                            show roomM.usedWords ⊆
              (advanceTurn _ (some player.id) now r).usedWords
                            rw [advanceTurn_usedWords]
                            show roomM.usedWords ⊆ roomM.usedWords.insert (sanitizeWord payload.word)
                            exact List.subset_insert _ _
                          · rw [lookup_setKey_ne _ hcode] at h
                            exact ⟨room2, h, fun x hx => hx⟩

theorem submitWordBody_used_error (dict : Dictionary) (st : ServerState) (sid : String)
    (payload : SubmitWordPayload) (now r : Nat) (room : RoomState) (player : Player)
    (hroom : lookupKey st.rooms (sanitizeRoomCode payload.roomCode) = some room)
    (howns : socketOwnsPlayer st sid (sanitizeRoomCode payload.roomCode)
      payload.playerId = true)
    (hphase : room.phase = Phase.in_game)
    (hplayer : getPlayer room payload.playerId = some player)
    (hconn : player.connected = true) (helim : player.eliminated = false)
    (hturn : room.activePlayerId = some player.id)
    (hshape : validWordShape (sanitizeWord payload.word) = true)
    (hlen : ¬ (sanitizeWord payload.word).length < 3)
    (hchunk : chunkSatisfied room (sanitizeWord payload.word) = true)
    (hused : room.usedWords.contains (sanitizeWord payload.word) = true) :
    (submitWordBody dict st sid payload now r).2 =
      errResult "Word already used in this match." := by
  simp only [submitWordBody]
  split
  · rename_i heq
    rw [hroom] at heq
    exact absurd heq (by simp)
  · rename_i roomM heq
    rw [hroom] at heq
    injection heq with heq2
    subst heq2
    rw [if_neg (show ¬ _ = true by rw [howns]; simp)]
    rw [if_neg (show ¬ room.phase ≠ Phase.in_game from fun hh => hh hphase)]
    rw [hplayer]
    dsimp only
    rw [if_neg (show ¬ _ = true by rw [hconn, helim]; simp)]
    rw [if_neg (show ¬ room.activePlayerId ≠ some player.id from fun hh => hh hturn)]
    rw [if_neg (show ¬ _ = true by rw [hshape]; simp)]
    rw [if_neg hlen]
    rw [if_neg (show ¬ _ = true by rw [hchunk]; simp)]
    rw [if_pos hused]

/-- C2: a word already in the used-word set of the match (after trim and
case-folding) is never accepted: the call fails and the room map is
unchanged, the used-word error is reported when every earlier check passes,
and a submission can only ever grow the used-word set of a room. -/
theorem claim_word_reuse_rejected :
    (∀ (dict : Dictionary) (st : ServerState) (sid : String)
       (payload : SubmitWordPayload) (now r : Nat) (room : RoomState),
       lookupKey st.rooms (sanitizeRoomCode payload.roomCode) = some room →
       room.usedWords.contains (sanitizeWord payload.word) = true →
       (submitWord dict st sid payload now r).2.ok = false ∧
       (submitWord dict st sid payload now r).1.rooms = st.rooms) ∧
    (∀ (dict : Dictionary) (st : ServerState) (sid : String)
       (payload : SubmitWordPayload) (now r : Nat) (code2 : String) (room2 : RoomState),
       lookupKey (submitWord dict st sid payload now r).1.rooms code2 = some room2 →
       ∃ room0, lookupKey st.rooms code2 = some room0 ∧
         room0.usedWords ⊆ room2.usedWords) ∧
    (∀ (dict : Dictionary) (st : ServerState) (sid : String)
       (payload : SubmitWordPayload) (now r : Nat) (room : RoomState) (player : Player),
       ¬ now - (lookupKey st.lastSubmitAtBySocket sid).getD 0 < SUBMIT_RATE_LIMIT_MS →
       lookupKey st.rooms (sanitizeRoomCode payload.roomCode) = some room →
       socketOwnsPlayer st sid (sanitizeRoomCode payload.roomCode)
         payload.playerId = true →
       room.phase = Phase.in_game →
       getPlayer room payload.playerId = some player →
       player.connected = true → player.eliminated = false →
       room.activePlayerId = some player.id →
       validWordShape (sanitizeWord payload.word) = true →
       ¬ (sanitizeWord payload.word).length < 3 →
       chunkSatisfied room (sanitizeWord payload.word) = true →
       room.usedWords.contains (sanitizeWord payload.word) = true →
       (submitWord dict st sid payload now r).2 =
         errResult "Word already used in this match.") := by
  refine ⟨?_, ?_, ?_⟩
  · intro dict st sid payload now r room hroom hused
    simp only [submitWord]
    split
    · exact ⟨rfl, rfl⟩
    · exact submitWordBody_used_reject dict
        { st with lastSubmitAtBySocket := setKey st.lastSubmitAtBySocket sid now }
        sid payload now r room hroom hused
  · intro dict st sid payload now r code2 room2 h
    revert h
    simp only [submitWord]
    split
    · intro h
      exact ⟨room2, h, fun x hx => hx⟩
    · intro h
      exact submitWordBody_mono dict
        { st with lastSubmitAtBySocket := setKey st.lastSubmitAtBySocket sid now }
        sid payload now r code2 room2 h
  · intro dict st sid payload now r room player hrate hroom howns hphase hplayer hconn
      helim hturn hshape hlen hchunk hused
    simp only [submitWord]
    rw [if_neg hrate]
    exact submitWordBody_used_error dict
      { st with lastSubmitAtBySocket := setKey st.lastSubmitAtBySocket sid now }
      sid payload now r room player hroom howns
      hphase hplayer hconn helim hturn hshape hlen hchunk hused

/-- witness for C2: resubmitting the already-used word "tar" (as "TAR ")
fails and leaves the room map unchanged -/
theorem claim_word_reuse_rejected_witness :
    (submitWord disabledDictionary wsGame "s1" ⟨"R1", "p1", "TAR "⟩ 1000 0).2.ok = false ∧
    (submitWord disabledDictionary wsGame "s1" ⟨"R1", "p1", "TAR "⟩ 1000 0).1.rooms =
      wsGame.rooms :=
  claim_word_reuse_rejected.1 disabledDictionary wsGame "s1" ⟨"R1", "p1", "TAR "⟩ 1000 0
    gameRoom (by decide) (by decide)

/-! ## Dictionary flag in settings (C9) -/

/-- C9: a host asking to enable dictionary validation in the lobby always gets
`ok`, but the stored flag is the conjunction with the server-wide oracle
state, which is off with a `false` environment flag, a failed word-file load,
or an empty parsed word list. -/
theorem claim_dictionary_setting :
    (∀ (dict : Dictionary) (st : ServerState) (sid : String)
       (payload : UpdateSettingsPayload) (now : Nat) (room : RoomState),
       lookupKey st.rooms (sanitizeRoomCode payload.roomCode) = some room →
       socketOwnsPlayer st sid (sanitizeRoomCode payload.roomCode)
         payload.playerId = true →
       room.phase = Phase.lobby →
       room.hostId = payload.playerId →
       payload.dictionaryEnabled = some true →
       (updateSettings dict st sid payload now).2.ok = true ∧
       ∃ room1,
         lookupKey (updateSettings dict st sid payload now).1.rooms
           (sanitizeRoomCode payload.roomCode) = some room1 ∧
         room1.config.dictionaryEnabled = dict.enabled) ∧
    (∀ l p, (createDictionary (some "false") l p).enabled = false) ∧
    (∀ env p, (createDictionary env none p).enabled = false) ∧
    (∀ env l, (createDictionary env l none).enabled = false) ∧
    (∀ env l p, (parseWords p ++ parseWords l).dedup = [] →
       (createDictionary env (some l) (some p)).enabled = false) := by
  refine ⟨?_, ?_, ?_, ?_, ?_⟩
  · intro dict st sid payload now room hroom howns hphase hhost hpay
    simp only [updateSettings]
    split
    · rename_i heq
      rw [hroom] at heq
      exact absurd heq (by simp)
    · rename_i roomM heq
      rw [hroom] at heq
      injection heq with heq2
      subst heq2
      rw [if_neg (show ¬ _ = true by rw [howns]; simp)]
      rw [if_neg (show ¬ room.phase ≠ Phase.lobby from fun hh => hh hphase)]
      rw [if_neg (show ¬ room.hostId ≠ payload.playerId from fun hh => hh hhost)]
      refine ⟨rfl, ?_⟩
      refine ⟨_, lookup_setKey_self _ _ _, ?_⟩
      rw [hpay]
      simp
  · intro l p
    rfl
  · intro env p
    simp only [createDictionary]
    split
    · rfl
    · rfl
  · intro env l
    simp only [createDictionary]
    split
    · rfl
    · cases l <;> rfl
  · intro env l p h
    simp only [createDictionary]
    split
    · rfl
    · rw [h]
      rfl

def lobbyRoom : RoomState :=
  { gameRoom with
      phase := Phase.lobby
      activePlayerId := none
      currentChunk := none
      timerEndsAt := none
      usedWords := []
      usedWordsOrdered := [] }

def wsLobby : ServerState := { wsGame with rooms := [("R1", lobbyRoom)] }

def payloadDict : UpdateSettingsPayload :=
  { roomCode := "R1", playerId := "p1", dictionaryEnabled := some true }

/-- witness for C9: with a disabled oracle, requesting `dictionaryEnabled`
still acks ok but stores the oracle flag, which is false -/
theorem claim_dictionary_setting_witness :
    (updateSettings disabledDictionary wsLobby "s1" payloadDict 3).2.ok = true ∧
    ∃ room1,
      lookupKey (updateSettings disabledDictionary wsLobby "s1" payloadDict 3).1.rooms
        (sanitizeRoomCode payloadDict.roomCode) = some room1 ∧
      room1.config.dictionaryEnabled = disabledDictionary.enabled :=
  claim_dictionary_setting.1 disabledDictionary wsLobby "s1" payloadDict 3 lobbyRoom
    (by decide) (by decide) (by decide) (by decide) rfl

/-! ## Reachable states and the active-player invariant (C1) -/

/-- the invariant: mid-game the active player id names a connected,
non-eliminated roster member -/
def activePlayerOk (room : RoomState) : Prop :=
  room.phase = Phase.in_game →
    ∃ p, p ∈ room.players ∧ room.activePlayerId = some p.id ∧
      p.connected = true ∧ p.eliminated = false

def roomsOk (st : ServerState) : Prop :=
  ∀ e ∈ st.rooms, activePlayerOk e.2

/-- every state the service can reach from startup by inbound actions and
scheduler steps -/
inductive Reachable (dict : Dictionary) : ServerState → Prop where
  | init : Reachable dict { rooms := [], socketSessions := [], lastSubmitAtBySocket := [] }
  | createRoomStep (st : ServerState) (sid name code pid : String) (now : Nat) :
      Reachable dict st → lookupKey st.rooms code = none →
      Reachable dict (createRoom dict st sid name code pid now).1
  | joinRoomStep (st : ServerState) (sid code name pid : String) (now : Nat) :
      Reachable dict st → Reachable dict (joinRoom st sid code name pid now).1
  | reconnectStep (st : ServerState) (sid code pid : String) (nameInput : Option String)
      (now r : Nat) :
      Reachable dict st → Reachable dict (reconnectPlayer st sid code pid nameInput now r).1
  | updateSettingsStep (st : ServerState) (sid : String) (payload : UpdateSettingsPayload)
      (now : Nat) :
      Reachable dict st → Reachable dict (updateSettings dict st sid payload now).1
  | startGameStep (st : ServerState) (sid : String) (payload : PlayerActionPayload)
      (now r : Nat) :
      Reachable dict st → Reachable dict (startGame st sid payload now r).1
  | submitWordStep (st : ServerState) (sid : String) (payload : SubmitWordPayload)
      (now r : Nat) :
      Reachable dict st → Reachable dict (submitWord dict st sid payload now r).1
  | playAgainStep (st : ServerState) (sid : String) (payload : PlayerActionPayload)
      (now : Nat) :
      Reachable dict st → Reachable dict (playAgain st sid payload now).1
  | disconnectStep (st : ServerState) (sid : String) (now r : Nat) :
      Reachable dict st → Reachable dict (handleDisconnect st sid now r)
  | tickStep (st : ServerState) (now r : Nat) :
      Reachable dict st → Reachable dict (tick st now r)
  | cleanupStep (st : ServerState) (now : Nat) :
      Reachable dict st → Reachable dict (cleanupRooms st now)

theorem activePlayerOk_vacuous {room : RoomState} (h : room.phase ≠ Phase.in_game) :
    activePlayerOk room := fun hph => absurd hph h

theorem activePlayerOk_of_lobby {room : RoomState} (hl : room.phase = Phase.lobby) :
    activePlayerOk room :=
  fun hph => absurd (hl.symm.trans hph) (by decide)

theorem activePlayerOk_of_results {room : RoomState} (hl : room.phase = Phase.results) :
    activePlayerOk room :=
  fun hph => absurd (hl.symm.trans hph) (by decide)

theorem activePlayerOk_congr {r2 r1 : RoomState} (hp : r2.players = r1.players)
    (hph : r2.phase = r1.phase) (ha : r2.activePlayerId = r1.activePlayerId)
    (h : activePlayerOk r1) : activePlayerOk r2 := by
  intro hin
  obtain ⟨p, hmem, hid, hc, he⟩ := h (hph.symm.trans hin)
  refine ⟨p, ?_, ?_, hc, he⟩
  · rw [hp]
    exact hmem
  · rw [ha]
    exact hid

theorem activePlayerOk_finishGame (room : RoomState) (w : Option Player) (now : Nat) :
    activePlayerOk (finishGame room w now) :=
  activePlayerOk_of_results rfl

theorem activePlayerOk_updateFirst {room : RoomState} {pid : String} {f : Player → Player}
    (hid : ∀ x, (f x).id = x.id)
    (helim : ∀ x, (f x).eliminated = x.eliminated)
    (hconn : ∀ x, x.connected = true → (f x).connected = true)
    (h : activePlayerOk room) :
    activePlayerOk { room with players := updateFirst room.players pid f } := by
  intro hph
  obtain ⟨p, hmem, hactive, hc, he⟩ := h hph
  rcases updateFirst_mem_or pid f hmem with hm | ⟨_, hm⟩
  · exact ⟨p, hm, hactive, hc, he⟩
  · refine ⟨f p, hm, ?_, hconn p hc, ?_⟩
    · rw [hid]
      exact hactive
    · rw [helim]
      exact he

theorem advanceTurn_ok (room : RoomState) (f : Option String) (now r : Nat) :
    activePlayerOk (advanceTurn room f now r) := by
  rcases advanceTurn_spec room f now r with h | ⟨next, hn, h⟩
  · rw [h]
    exact activePlayerOk_finishGame _ _ _
  · rw [h]
    intro hph
    obtain ⟨hmem, hc, he⟩ := getNextEligiblePlayer_sound hn
    exact ⟨next, hmem, rfl, hc, he⟩

theorem expireActive_ok (room : RoomState) (aid : String) (now r : Nat) :
    activePlayerOk (expireActive room aid now r) := by
  unfold expireActive
  cases hg : getPlayer room aid with
  | none => exact activePlayerOk_congr rfl rfl rfl (advanceTurn_ok room (some aid) now r)
  | some active =>
      dsimp only
      by_cases c : (!active.connected || active.eliminated) = true
      · rw [if_pos c]
        exact activePlayerOk_congr rfl rfl rfl (advanceTurn_ok room (some aid) now r)
      · rw [if_neg c]
        exact activePlayerOk_congr rfl rfl rfl (advanceTurn_ok _ (some active.id) now r)

theorem handleTimerExpiry_ok (room : RoomState) (now r : Nat)
    (h : activePlayerOk room) : activePlayerOk (handleTimerExpiry room now r) := by
  unfold handleTimerExpiry
  cases hph : room.phase with
  | in_game =>
      cases hact : room.activePlayerId with
      | none => exact activePlayerOk_congr rfl rfl rfl h
      | some aid => exact expireActive_ok room aid now r
  | lobby => exact activePlayerOk_congr rfl rfl rfl h
  | results => exact activePlayerOk_congr rfl rfl rfl h

theorem tickRoom_ok (room : RoomState) (now r : Nat) (h : activePlayerOk room) :
    activePlayerOk (tickRoom room now r) := by
  unfold tickRoom
  split
  · exact h
  · split
    · split
      · exact handleTimerExpiry_ok room now r h
      · exact h
    · exact h

theorem roomsOk_setKey {m : List (String × RoomState)} {k : String} {room : RoomState}
    (h : ∀ e ∈ m, activePlayerOk e.2) (hroom : activePlayerOk room) :
    ∀ e ∈ setKey m k room, activePlayerOk e.2 := by
  intro e he
  rcases mem_setKey he with hm | he2
  · exact h e hm
  · rw [he2]
    exact hroom

theorem roomsOk_lookup {st : ServerState} (h : roomsOk st) {k : String} {room : RoomState}
    (hl : lookupKey st.rooms k = some room) : activePlayerOk room :=
  h (k, room) (lookupKey_mem hl)

theorem createRoom_roomsOk (dict : Dictionary) (st : ServerState)
    (sid name code pid : String) (now : Nat) (h : roomsOk st) :
    roomsOk (createRoom dict st sid name code pid now).1 := by
  simp only [createRoom]
  split
  · exact h
  · intro e he
    exact roomsOk_setKey h (activePlayerOk_of_lobby rfl) e he

theorem joinRoom_roomsOk (st : ServerState) (socketId roomCodeInput nameInput playerId : String)
    (now : Nat) (h : roomsOk st) :
    roomsOk (joinRoom st socketId roomCodeInput nameInput playerId now).1 := by
  simp only [joinRoom]
  by_cases c0 : sanitizeRoomCode roomCodeInput = ""
  · rw [if_pos c0]
    exact h
  · rw [if_neg c0]
    by_cases c1 : sanitizePlayerName nameInput = ""
    · rw [if_pos c1]
      exact h
    · rw [if_neg c1]
      cases hlu : lookupKey st.rooms (sanitizeRoomCode roomCodeInput) with
      | none => exact h
      | some room =>
          dsimp only
          by_cases c2 : room.phase ≠ Phase.lobby
          · rw [if_pos c2]
            exact h
          · rw [if_neg c2]
            by_cases c3 : MAX_PLAYERS_PER_ROOM ≤ room.players.length
            · rw [if_pos c3]
              exact h
            · rw [if_neg c3]
              by_cases c4 : (room.players.any
                  (fun p => toLowerStr p.name ==
                    toLowerStr (sanitizePlayerName nameInput))) = true
              · rw [if_pos c4]
                exact h
              · rw [if_neg c4]
                intro e he
                refine roomsOk_setKey h ?_ e he
                exact activePlayerOk_of_lobby (not_ne_iff.mp c2)

theorem reconnectApply_ok {room : RoomState} (player : Player) (socketId newName : String)
    (h : activePlayerOk room) :
    activePlayerOk (reconnectApply room player socketId newName) := by
  unfold reconnectApply
  exact activePlayerOk_updateFirst (fun _ => rfl) (fun _ => rfl) (fun _ _ => rfl) h

theorem reconnectResume_ok (room2 : RoomState) (now r : Nat) (h : activePlayerOk room2) :
    activePlayerOk (reconnectResume room2 now r) := by
  unfold reconnectResume
  by_cases hbr : room2.phase = Phase.in_game ∧ room2.activePlayerId = none
  · rw [if_pos hbr]
    cases hn : getNextEligiblePlayer room2 none with
    | none => exact h
    | some next =>
        intro hph
        obtain ⟨hm, hc, he⟩ := getNextEligiblePlayer_sound hn
        exact ⟨next, hm, rfl, hc, he⟩
  · rw [if_neg hbr]
    exact h

theorem reconnect_roomsOk (st : ServerState) (socketId roomCodeInput playerId : String)
    (nameInput : Option String) (now r : Nat) (h : roomsOk st) :
    roomsOk (reconnectPlayer st socketId roomCodeInput playerId nameInput now r).1 := by
  simp only [reconnectPlayer]
  cases hlu : lookupKey st.rooms (sanitizeRoomCode roomCodeInput) with
  | none => exact h
  | some room =>
      dsimp only
      cases hg : getPlayer room playerId with
      | none => exact h
      | some player =>
          dsimp only
          intro e he
          refine roomsOk_setKey h ?_ e he
          refine activePlayerOk_congr rfl rfl rfl ?_
          refine reconnectResume_ok _ now r ?_
          refine activePlayerOk_congr (ensureHost_players _) (ensureHost_phase _)
            (ensureHost_activePlayerId _) ?_
          refine activePlayerOk_congr rfl rfl rfl ?_
          exact reconnectApply_ok player socketId _ (roomsOk_lookup h hlu)

theorem updateSettings_roomsOk (dict : Dictionary) (st : ServerState) (socketId : String)
    (payload : UpdateSettingsPayload) (now : Nat) (h : roomsOk st) :
    roomsOk (updateSettings dict st socketId payload now).1 := by
  simp only [updateSettings]
  cases hlu : lookupKey st.rooms (sanitizeRoomCode payload.roomCode) with
  | none => exact h
  | some room =>
      dsimp only
      by_cases c1 : (!socketOwnsPlayer st socketId (sanitizeRoomCode payload.roomCode)
          payload.playerId) = true
      · rw [if_pos c1]
        exact h
      · rw [if_neg c1]
        by_cases c2 : room.phase ≠ Phase.lobby
        · rw [if_pos c2]
          exact h
        · rw [if_neg c2]
          by_cases c3 : room.hostId ≠ payload.playerId
          · rw [if_pos c3]
            exact h
          · rw [if_neg c3]
            intro e he
            refine roomsOk_setKey h ?_ e he
            exact activePlayerOk_of_lobby (not_ne_iff.mp c2)

theorem startGame_roomsOk (st : ServerState) (socketId : String)
    (payload : PlayerActionPayload) (now r : Nat) (h : roomsOk st) :
    roomsOk (startGame st socketId payload now r).1 := by
  simp only [startGame]
  cases hlu : lookupKey st.rooms (sanitizeRoomCode payload.roomCode) with
  | none => exact h
  | some room =>
      dsimp only
      by_cases c1 : (!socketOwnsPlayer st socketId (sanitizeRoomCode payload.roomCode)
          payload.playerId) = true
      · rw [if_pos c1]
        exact h
      · rw [if_neg c1]
        by_cases c2 : room.hostId ≠ payload.playerId
        · rw [if_pos c2]
          exact h
        · rw [if_neg c2]
          by_cases c3 : room.phase ≠ Phase.lobby
          · rw [if_pos c3]
            exact h
          · rw [if_neg c3]
            by_cases c4 : (room.players.filter (fun p => p.connected)).length <
                MIN_PLAYERS_TO_START
            · rw [if_pos c4]
              exact h
            · rw [if_neg c4]
              cases hn : getNextEligiblePlayer (startGameReset room) none with
              | none =>
                  intro e he
                  exact roomsOk_setKey h (activePlayerOk_of_lobby rfl) e he
              | some firstActive =>
                  intro e he
                  refine roomsOk_setKey h ?_ e he
                  intro hph
                  obtain ⟨hm, hc, helim⟩ := getNextEligiblePlayer_sound hn
                  exact ⟨firstActive, hm, rfl, hc, helim⟩

theorem submitWordBody_roomsOk (dict : Dictionary) (st : ServerState) (sid : String)
    (payload : SubmitWordPayload) (now r : Nat) (h : roomsOk st) :
    roomsOk (submitWordBody dict st sid payload now r).1 := by
  simp only [submitWordBody]
  split
  · exact h
  · rename_i roomM heq
    by_cases c1 :
        (!socketOwnsPlayer st sid (sanitizeRoomCode payload.roomCode) payload.playerId) = true
    · rw [if_pos c1]
      exact h
    · rw [if_neg c1]
      by_cases c2 : roomM.phase ≠ Phase.in_game
      · rw [if_pos c2]
        exact h
      · rw [if_neg c2]
        cases hg : getPlayer roomM payload.playerId with
        | none => exact h
        | some player =>
            dsimp only
            by_cases c4 : (!player.connected || player.eliminated) = true
            · rw [if_pos c4]
              exact h
            · rw [if_neg c4]
              by_cases c5 : roomM.activePlayerId ≠ some player.id
              · rw [if_pos c5]
                exact h
              · rw [if_neg c5]
                by_cases c6 : (!validWordShape (sanitizeWord payload.word)) = true
                · rw [if_pos c6]
                  exact h
                · rw [if_neg c6]
                  by_cases c7 : (sanitizeWord payload.word).length < 3
                  · rw [if_pos c7]
                    exact h
                  · rw [if_neg c7]
                    by_cases c8 :
                        (!chunkSatisfied roomM (sanitizeWord payload.word)) = true
                    · rw [if_pos c8]
                      exact h
                    · rw [if_neg c8]
                      by_cases c9 :
                          roomM.usedWords.contains (sanitizeWord payload.word) = true
                      · rw [if_pos c9]
                        exact h
                      · rw [if_neg c9]
                        by_cases c10 :
                            (roomM.config.dictionaryEnabled &&
                              !dict.has (sanitizeWord payload.word)) = true
                        · rw [if_pos c10]
                          exact h
                        · rw [if_neg c10]
                          intro e he
                          refine roomsOk_setKey h ?_ e he
                          exact activePlayerOk_congr rfl rfl rfl
                            (advanceTurn_ok _ (some player.id) now r)

theorem submitWord_roomsOk (dict : Dictionary) (st : ServerState) (sid : String)
    (payload : SubmitWordPayload) (now r : Nat) (h : roomsOk st) :
    roomsOk (submitWord dict st sid payload now r).1 := by
  simp only [submitWord]
  split
  · exact h
  · exact submitWordBody_roomsOk dict
      { st with lastSubmitAtBySocket := setKey st.lastSubmitAtBySocket sid now }
      sid payload now r (fun e he => h e he)

theorem playAgain_roomsOk (st : ServerState) (socketId : String)
    (payload : PlayerActionPayload) (now : Nat) (h : roomsOk st) :
    roomsOk (playAgain st socketId payload now).1 := by
  simp only [playAgain]
  cases hlu : lookupKey st.rooms (sanitizeRoomCode payload.roomCode) with
  | none => exact h
  | some room =>
      dsimp only
      by_cases c1 : (!socketOwnsPlayer st socketId (sanitizeRoomCode payload.roomCode)
          payload.playerId) = true
      · rw [if_pos c1]
        exact h
      · rw [if_neg c1]
        by_cases c2 : room.hostId ≠ payload.playerId
        · rw [if_pos c2]
          exact h
        · rw [if_neg c2]
          by_cases c3 : room.phase ≠ Phase.results
          · rw [if_pos c3]
            exact h
          · rw [if_neg c3]
            intro e he
            exact roomsOk_setKey h (activePlayerOk_of_lobby rfl) e he

theorem hostFix_activePlayerId (room1 : RoomState) (player : Player) :
    (hostFix room1 player).activePlayerId = room1.activePlayerId := by
  unfold hostFix
  split
  · exact ensureHost_activePlayerId room1
  · rfl

theorem disconnectTurn_ok {room room2 : RoomState} (player : Player) (now r : Nat)
    (hp2 : room2.players = updateFirst room.players player.id dropConnection)
    (hph2 : room2.phase = room.phase)
    (ha2 : room2.activePlayerId = room.activePlayerId)
    (h : activePlayerOk room) :
    activePlayerOk (disconnectTurn room2 player now r) := by
  unfold disconnectTurn
  by_cases h1 : room2.phase = Phase.in_game
  · rw [if_pos h1]
    by_cases h2 : room2.activePlayerId = some player.id
    · rw [if_pos h2]
      exact advanceTurn_ok _ (some player.id) now r
    · rw [if_neg h2]
      by_cases h3 : (getEligiblePlayers room2).length ≤ 1
      · rw [if_pos h3]
        exact activePlayerOk_of_results rfl
      · rw [if_neg h3]
        intro hph
        obtain ⟨q, hqmem, hqact, hqc, hqe⟩ := h (hph2 ▸ h1)
        have hqid : q.id ≠ player.id := by
          intro hcontr
          apply h2
          rw [ha2, hqact, hcontr]
        refine ⟨q, ?_, ?_, hqc, hqe⟩
        · rw [hp2]
          exact mem_updateFirst_of_ne hqmem hqid
        · rw [ha2]
          exact hqact
  · rw [if_neg h1]
    exact activePlayerOk_vacuous h1

theorem applyDisconnect_ok (room : RoomState) (player : Player) (now r : Nat)
    (h : activePlayerOk room) : activePlayerOk (applyDisconnect room player now r) := by
  unfold applyDisconnect
  refine activePlayerOk_congr rfl rfl rfl ?_
  exact disconnectTurn_ok player now r (by rw [hostFix_players]; rfl)
    (by rw [hostFix_phase]; rfl) (by rw [hostFix_activePlayerId]; rfl) h

theorem handleDisconnect_roomsOk (st : ServerState) (sid : String) (now r : Nat)
    (h : roomsOk st) : roomsOk (handleDisconnect st sid now r) := by
  simp only [handleDisconnect]
  cases hs : lookupKey st.socketSessions sid with
  | none => exact fun e he => h e he
  | some session =>
      dsimp only
      cases hr : lookupKey st.rooms session.roomCode with
      | none => exact fun e he => h e he
      | some room =>
          dsimp only
          cases hp : getPlayer room session.playerId with
          | none => exact fun e he => h e he
          | some player =>
              dsimp only
              by_cases hsock : player.socketId ≠ some sid
              · rw [if_pos hsock]
                exact fun e he => h e he
              · rw [if_neg hsock]
                intro e he
                refine roomsOk_setKey h ?_ e he
                exact applyDisconnect_ok room player now r (roomsOk_lookup h hr)

theorem tick_roomsOk (st : ServerState) (now r : Nat) (h : roomsOk st) :
    roomsOk (tick st now r) := by
  intro e he
  simp only [tick] at he
  obtain ⟨a, ha, hae⟩ := List.mem_map.mp he
  rw [← hae]
  exact tickRoom_ok a.2 now r (h a ha)

theorem cleanupRooms_roomsOk (st : ServerState) (now : Nat) (h : roomsOk st) :
    roomsOk (cleanupRooms st now) := by
  intro e he
  simp only [cleanupRooms] at he
  exact h e (List.mem_of_mem_filter he)

/-- C1: in every reachable service state, every room that is mid-game has a
non-null active player id naming a roster member that is connected and not
eliminated. -/
theorem claim_active_player_eligible (dict : Dictionary) (st : ServerState)
    (h : Reachable dict st) : roomsOk st := by
  induction h with
  | init => exact fun e he => absurd he (List.not_mem_nil e)
  | createRoomStep st sid name code pid now hr hfresh ih =>
      exact createRoom_roomsOk dict st sid name code pid now ih
  | joinRoomStep st sid code name pid now hr ih =>
      exact joinRoom_roomsOk st sid code name pid now ih
  | reconnectStep st sid code pid nameInput now r hr ih =>
      exact reconnect_roomsOk st sid code pid nameInput now r ih
  | updateSettingsStep st sid payload now hr ih =>
      exact updateSettings_roomsOk dict st sid payload now ih
  | startGameStep st sid payload now r hr ih =>
      exact startGame_roomsOk st sid payload now r ih
  | submitWordStep st sid payload now r hr ih =>
      exact submitWord_roomsOk dict st sid payload now r ih
  | playAgainStep st sid payload now hr ih =>
      exact playAgain_roomsOk st sid payload now ih
  | disconnectStep st sid now r hr ih =>
      exact handleDisconnect_roomsOk st sid now r ih
  | tickStep st now r hr ih =>
      exact tick_roomsOk st now r ih
  | cleanupStep st now hr ih =>
      exact cleanupRooms_roomsOk st now ih

/-- witness for C1: the state after creating one room is reachable and
satisfies the invariant -/
theorem claim_active_player_eligible_witness :
    roomsOk (createRoom disabledDictionary
      { rooms := [], socketSessions := [], lastSubmitAtBySocket := [] }
      "s1" "Ava" "ROOM01" "p1" 0).1 :=
  claim_active_player_eligible disabledDictionary _
    (Reachable.createRoomStep _ "s1" "Ava" "ROOM01" "p1" 0 Reachable.init rfl)

end WordFuse
